import Mathlib

/-!
Verification development for the MapCompleteVScode cache subsystem
(src/src/utils/cache.ts).  The TypeScript code is shallowly embedded:

* JSON values parsed by JSON.parse become the inductive type Json;
  a file whose text is not valid JSON is represented by a parse result
  of none (JSON.parse throwing).
* The vscode workspace is a list of files, each with its fsPath, its
  mtime and its parse result; vscode.workspace.findFiles becomes a
  filter over that list.
* getStartEnd (src/src/utils/cursor.ts) is a total pure function of a
  text and a jsonc JSONPath (it returns a zero range on misses); ranges
  stored in the cache are therefore represented by the JSONPath that
  getStartEnd was called with: on one fixed text, equal paths give equal
  ranges.
* JavaScript exceptions become Except-shaped results: an entry-loop that
  throws keeps the cache.items pushes made before the throw and stops,
  which the embedding models by returning the partial item list together
  with a success flag.
* JavaScript coercions used by the code (template-string coercion of
  non-strings, truthiness tests, parseInt, Array.prototype.indexOf
  identity semantics for objects) are embedded explicitly below.

The regular expressions built by findTagRenderingInText come from id
segments in which the first "*" is replaced by ".*"; the matcher below
implements the fragment actually generated: literal characters, ".",
and a postfix "*" quantifier, with JavaScript RegExp.prototype.test
(unanchored search) semantics.
-/

/-- JSON value, the result of a successful JSON.parse. -/
inductive Json where
  | str (s : String)
  | num (n : Int)
  | bool (b : Bool)
  | null
  | arr (elems : List Json)
  | obj (fields : List (String × Json))

/-- Splits a string at every occurrence of a separator character,
mirroring JavaScript String.prototype.split with a one-character
separator (total, never returns an empty list). -/
def splitCharAux (sep : Char) : List Char → List Char → List String
  | [], acc => [String.mk acc.reverse]
  | c :: cs, acc =>
      if c = sep then String.mk acc.reverse :: splitCharAux sep cs []
      else splitCharAux sep cs (c :: acc)

def splitOnChar (sep : Char) (s : String) : List String :=
  splitCharAux sep s.data []

/-- JavaScript String.prototype.endsWith. -/
def strEndsWith (s suffixStr : String) : Bool :=
  suffixStr.data.isSuffixOf s.data

/-- JavaScript String.prototype.includes for a one-character needle,
as used by identifier.includes "." and identifier.includes "*". -/
def strContainsChar (s : String) (c : Char) : Bool :=
  s.data.contains c

/-- Substring test (JavaScript String.prototype.includes with a string
needle), used by the label fallback when a labels value is a string. -/
def strContainsStr (s needle : String) : Bool :=
  (List.range (s.data.length + 1)).any
    (fun i => needle.data.isPrefixOf (s.data.drop i))

def joinWith (sep : String) : List String → String
  | [] => ""
  | [x] => x
  | x :: y :: xs => x ++ sep ++ joinWith sep (y :: xs)

mutual
/-- JavaScript ToString coercion as performed by template literals:
strings stay themselves, numbers print in decimal, plain objects print
as "[object Object]", arrays join their elements with commas. -/
def jsToString : Json → String
  | .str s => s
  | .num n => toString n
  | .bool b => if b then "true" else "false"
  | .null => "null"
  | .arr xs => jsArrToString xs
  | .obj _ => "[object Object]"

/-- Array.prototype.toString: elements joined with ",", null printing
as the empty string inside an array. -/
def jsArrToString : List Json → String
  | [] => ""
  | [x] => match x with
    | .null => ""
    | x => jsToString x
  | x :: y :: xs =>
      (match x with | .null => "" | x => jsToString x) ++ "," ++ jsArrToString (y :: xs)
end

/-- ToString of a possibly-undefined value (undefined prints as the
string "undefined" in a template literal). -/
def jsToStringU : Option Json → String
  | none => "undefined"
  | some v => jsToString v

/-- JavaScript truthiness. -/
def jsTruthy : Json → Bool
  | .str s => s ≠ ""
  | .num n => n ≠ 0
  | .bool b => b
  | .null => false
  | .arr _ => true
  | .obj _ => true

def jsTruthyU : Option Json → Bool
  | none => false
  | some v => jsTruthy v

/-- Property access v.k: defined members of objects; everything else
(including member access on strings, numbers and arrays, whose own
properties are never hit by the embedded code) yields undefined.
Access on null, which throws in JavaScript, is handled at each use
site before calling this function. -/
def getField : Json → String → Option Json
  | .obj fields, k => (fields.find? (fun f => f.fst = k)).map (·.snd)
  | _, _ => none

def getFieldU (v : Option Json) (k : String) : Option Json :=
  match v with
  | none => none
  | some j => getField j k

/-- JavaScript strict equality of a value against a given string. -/
def jsIsStr (v : Option Json) (s : String) : Bool :=
  match v with
  | some (.str t) => t = s
  | _ => false

/-- Values for..of can iterate: arrays yield their elements, strings
yield their characters as one-character strings; anything else is not
iterable (for..of throws). -/
def jsIterate : Json → Option (List Json)
  | .arr xs => some xs
  | .str s => some (s.data.map (fun c => Json.str (String.mk [c])))
  | _ => none

/-- Strict equality test used by Array.prototype.indexOf: primitives
compare by value, objects and arrays by identity (so two distinct
literals in one parsed document are never equal). -/
def jsPrimEq : Json → Json → Bool
  | .str a, .str b => a = b
  | .num a, .num b => a = b
  | .bool a, .bool b => a = b
  | .null, .null => true
  | _, _ => false

def jsIsPrim : Json → Bool
  | .str _ => true
  | .num _ => true
  | .bool _ => true
  | .null => true
  | _ => false

/-- Array.prototype.indexOf of an element that is known to occur at
position pos: for a primitive it returns the first position holding the
same primitive value, for an object it returns pos itself (identity
equality: a parsed object is only identical to itself). -/
def jsIndexOf (xs : List Json) (x : Json) (pos : Nat) : Nat :=
  if jsIsPrim x then
    match xs.findIdx? (fun y => jsPrimEq y x) with
    | some i => i
    | none => pos
  else pos

/-- Segment of a jsonc JSONPath as handed to getStartEnd: a string key,
a numeric index, NaN (result of a failed parseInt) or undefined (result
of an out-of-range split access). -/
inductive Seg where
  | key (s : String)
  | idx (n : Nat)
  | nan
  | undef
deriving DecidableEq, Repr

def digitsToNat : List Char → Nat → Nat
  | [], acc => acc
  | c :: cs, acc =>
      if c.isDigit then digitsToNat cs (acc * 10 + (c.toNat - 48))
      else acc

def leadingDigits : List Char → List Char
  | [] => []
  | c :: cs => if c.isDigit then c :: leadingDigits cs else []

/-- JavaScript parseInt applied to a possibly-undefined string, as a
path segment: leading decimal digits, NaN otherwise.  (The embedded
code only ever feeds it canonical decimal strings or non-numeric
strings.) -/
def parseIntSeg : Option String → Seg
  | none => Seg.nan
  | some s =>
      match leadingDigits s.data with
      | [] => Seg.nan
      | ds => Seg.idx (digitsToNat ds 0)

/-- Element n of a JavaScript split result, undefined when out of
range. -/
def jsGetElem (xs : List String) (n : Nat) : Option String :=
  xs.get? n

def segOfSplit (xs : List String) (n : Nat) : Seg :=
  match jsGetElem xs n with
  | none => Seg.undef
  | some s => Seg.key s

/-- Token of the regular-expression fragment generated by
findTagRenderingInText: an atom (a literal character or the "." wildcard)
with or without a postfix "*" quantifier. -/
inductive RTok where
  | lit (c : Char) (star : Bool)
  | dot (star : Bool)
deriving DecidableEq, Repr

/-- Compiles the pattern string into tokens.  Returns none exactly when
the JavaScript RegExp constructor would throw a syntax error on the
fragment, i.e. when a "*" has no preceding atom. -/
def compileRegex : List Char → Option (List RTok)
  | [] => some []
  | '*' :: _ => none
  | _ :: '*' :: '*' :: _ => none
  | c :: '*' :: rest =>
      (compileRegex rest).map (fun ts =>
        (if c = '.' then RTok.dot true else RTok.lit c true) :: ts)
  | c :: rest =>
      (compileRegex rest).map (fun ts =>
        (if c = '.' then RTok.dot false else RTok.lit c false) :: ts)

def atomMatch : RTok → Char → Bool
  | .lit c _, d => c = d
  | .dot _, _ => true

def rtokStar : RTok → Bool
  | .lit _ b => b
  | .dot b => b

/-- Anchored match of a token list against a character list, with fuel
(structural recursion on the fuel keeps the definition kernel-reducible;
fuel of pattern length plus string length plus one always suffices). -/
def matchHere (fuel : Nat) (p : List RTok) (s : List Char) : Bool :=
  match fuel with
  | 0 => false
  | fuel + 1 =>
    match p with
    | [] => true
    | tok :: rest =>
        if rtokStar tok then
          matchHere fuel rest s ||
            (match s with
             | [] => false
             | c :: cs => atomMatch tok c && matchHere fuel p cs)
        else
          match s with
          | [] => false
          | c :: cs => atomMatch tok c && matchHere fuel rest cs

/-- JavaScript RegExp.prototype.test: unanchored search, trying every
start position. -/
def reTest (p : List RTok) (s : String) : Bool :=
  (List.range (s.data.length + 1)).any
    (fun i => matchHere (p.length + s.data.length + 1) p (s.data.drop i))

/-- Replaces the first occurrence of "*" by ".*", mirroring JavaScript
String.prototype.replace with a string pattern. -/
def replaceFirstStar : List Char → List Char
  | [] => []
  | '*' :: rest => '.' :: '*' :: rest
  | c :: rest => c :: replaceFirstStar rest

/-- Kind of a cache item (the type field of CacheItem in cache.ts). -/
inductive IType where
  | tagRendering
  | filter
  | reference
deriving DecidableEq, Repr

/-- Kind of a reference (the type field of Reference in cache.ts). -/
inductive RType where
  | layer
  | tagRendering
  | filter
deriving DecidableEq, Repr

/-- One side of a reference (ReferenceDetail in cache.ts).  The uri is
the fsPath of the file (undefined when findFiles found nothing); the
range is represented by the JSONPath passed to getStartEnd, none when
the code stores no range for this side. -/
structure RefDetail where
  id : String
  uri : Option String
  range : Option (List Seg)
deriving DecidableEq, Repr

/-- A reference between two items (Reference in cache.ts); from is a
Lean keyword and to a reserved token, hence the trailing underscores. -/
structure Reference where
  from_ : RefDetail
  to_ : RefDetail
  type : RType
deriving DecidableEq, Repr

/-- A cached item (CacheItem in cache.ts). -/
structure CacheItem where
  id : String
  filePath : String
  jsonPath : List Seg
  type : IType
  reference : Option Reference
deriving DecidableEq, Repr

/-- The cache state (CacheData in cache.ts, without the persisted
timestamp, which no claim concerns).  files is the insertion-ordered
path-to-mtime record. -/
structure CacheData where
  items : List CacheItem
  files : List (String × Nat)
deriving DecidableEq, Repr

/-- Read files[p] with the JavaScript default (files[p] or 0). -/
def lookupTs (files : List (String × Nat)) (p : String) : Nat :=
  match files.find? (fun f => f.fst = p) with
  | some f => f.snd
  | none => 0

/-- Assignment files[p] = t on a JavaScript object: overwrite in place
when the key exists, append otherwise. -/
def setTs (files : List (String × Nat)) (p : String) (t : Nat) : List (String × Nat) :=
  if files.any (fun f => f.fst = p) then
    files.map (fun f => if f.fst = p then (p, t) else f)
  else
    files ++ [(p, t)]

/-- A workspace file: fsPath, on-disk mtime, and the result of
JSON.parse on its text (none when the text is not valid JSON). -/
structure WFile where
  path : String
  mtime : Nat
  parsed : Option Json

/-- The workspace, as enumerated and watched through vscode. -/
abbrev Workspace := List WFile

def pathSegs (p : String) : List String :=
  splitOnChar '/' p

/-- Scan for the saveFileToCache path regex, over the path segments that
are preceded by a slash: four consecutive segments "assets", then
"themes" or "layers", then a nonempty name, then a segment starting with
that name followed by ".json" (the regex has no end anchor). -/
def assetMatchAux : List String → Option String
  | a :: b :: c :: d :: rest =>
      if a = "assets" ∧ (b = "themes" ∨ b = "layers") ∧ c ≠ "" ∧
          (c ++ ".json").data.isPrefixOf d.data then
        some b
      else assetMatchAux (b :: c :: d :: rest)
  | _ => none

/-- Matching of the regex /\/assets\/(themes|layers)\/([^\/]+)\/\2\.json/
against an fsPath, returning the asset capture group of the leftmost
match.  Dropping the first split segment restricts the search to
segments preceded by a slash. -/
def assetMatch (p : String) : Option String :=
  match pathSegs p with
  | [] => none
  | _ :: rest => assetMatchAux rest

/-- Matching of the findFiles glob assets/layers/NAME/NAME.json with a
leading double star: the path ends in those four segments. -/
def isLayerFilePath (name : String) (p : String) : Bool :=
  ["assets", "layers", name, name ++ ".json"].isSuffixOf (pathSegs p)

/-- findFiles for a layer by name, in workspace enumeration order; the
code always uses element 0 of the result. -/
def findLayerFiles (ws : Workspace) (name : String) : List WFile :=
  ws.filter (fun f => isLayerFilePath name f.path)

/-- Matching of the scanWorkspace glob assets/STAR/STAR/STAR.json: the
workspace-root placement of the assets folder is approximated by the
path containing the four-segment tail. -/
def globAssets (p : String) : Bool :=
  match (pathSegs p).reverse with
  | z :: _ :: _ :: a :: _ => a = "assets" ∧ strEndsWith z ".json"
  | _ => false

/-- Result of findTagRenderingInText: the JSONPaths of the matches and,
parallel to them, the matched identifiers.  The identifiers are stored
after the Array.prototype.join element coercion (undefined and null
joining as the empty string) that their single consumer, the toId
computation, applies. -/
structure TRMatches where
  paths : List (List Seg)
  ids : List String
deriving DecidableEq, Repr

/-- Coercion of a matched id value into a JSONPath segment (the
wildcard id branch stores the id value itself in the path). -/
def segOfJsVal : Option Json → Seg
  | some (.str s) => Seg.key s
  | some (.num n) => if 0 ≤ n then Seg.idx n.toNat else Seg.nan
  | some _ => Seg.undef
  | none => Seg.undef

/-- Array.prototype.join coercion of one element. -/
def joinElemStr : Option Json → String
  | none => ""
  | some .null => ""
  | some v => jsToString v

/-- Label scan of the wildcard branch: for each tagRendering whose
labels value is not undefined, iterate the labels with for..of and push
the tagRendering index once per label matched by the regex; a labels
value that is neither undefined nor iterable makes for..of throw. -/
def wildLabelIdx (re : List RTok) : List (Option Json) → Nat → Except Unit (List Nat)
  | [], _ => .ok []
  | v :: rest, i =>
      match v with
      | none => wildLabelIdx re rest (i + 1)
      | some lv =>
          match jsIterate lv with
          | none => .error ()
          | some labels =>
              match wildLabelIdx re rest (i + 1) with
              | .error e => .error e
              | .ok more =>
                  .ok (((labels.filter (fun l => reTest re (jsToString l))).map
                    (fun _ => i)) ++ more)

/-- Label fallback of the non-wildcard branch: labels[i]?.includes(id).
Optional chaining skips undefined and null; an array tests membership,
a string tests substring containment, anything else has no includes
method and throws. -/
def labelFallbackIdx (identifier : String) : List (Option Json) → Nat → Except Unit (List Nat)
  | [], _ => .ok []
  | v :: rest, i =>
      match v with
      | none => labelFallbackIdx identifier rest (i + 1)
      | some .null => labelFallbackIdx identifier rest (i + 1)
      | some (.arr xs) =>
          match labelFallbackIdx identifier rest (i + 1) with
          | .error e => .error e
          | .ok more =>
              .ok (if xs.any (fun l => jsPrimEq l (.str identifier)) then i :: more else more)
      | some (.str s) =>
          match labelFallbackIdx identifier rest (i + 1) with
          | .error e => .error e
          | .ok more =>
              .ok (if strContainsStr s identifier then i :: more else more)
      | some _ => .error ()

/-- Embedding of CacheWorker.findTagRenderingInText: find the
tagRenderings of the candidate document text matching an identifier.
Errors are the JavaScript exceptions: a candidate document without a
tagRenderings array, an invalid regular expression, or a malformed
labels value. -/
def findTagRenderingInText (tj : Json) (identifier : String) : Except Unit TRMatches :=
  match getField tj "tagRenderings" with
  | some (.arr trs) =>
      let trIds : List (Option Json) := trs.map (fun tr => getField tr "id")
      let trLabels : List (Option Json) := trs.map (fun tr => getField tr "labels")
      if strContainsChar identifier '*' then
        let pattern := (splitOnChar '.' identifier).getLastD ""
        if pattern = "" then .ok ⟨[], []⟩
        else
          match compileRegex (replaceFirstStar pattern.data) with
          | none => .error ()
          | some re =>
              let matchingIds := trIds.filter (fun v => reTest re (jsToStringU v))
              match wildLabelIdx re trLabels 0 with
              | .error e => .error e
              | .ok labelIdx =>
                  .ok ⟨(matchingIds.map (fun v => [Seg.key "tagRenderings", segOfJsVal v])) ++
                        labelIdx.map (fun i => [Seg.key "tagRenderings", Seg.idx i]),
                       (matchingIds.map joinElemStr) ++
                        labelIdx.map (fun i => joinElemStr (trIds.getD i none))⟩
      else
        match trIds.findIdx? (fun v => jsIsStr v identifier) with
        | some i => .ok ⟨[[Seg.key "tagRenderings", Seg.idx i]], [identifier]⟩
        | none =>
            match labelFallbackIdx identifier trLabels 0 with
            | .error e => .error e
            | .ok labelIdx =>
                .ok ⟨labelIdx.map (fun i => [Seg.key "tagRenderings", Seg.idx i]),
                     labelIdx.map (fun i => joinElemStr (trIds.getD i none))⟩
  | _ => .error ()

/-- Split element as interpolated into a template literal (undefined
prints as "undefined"). -/
def splitElemStr (xs : List String) (n : Nat) : String :=
  (xs.get? n).getD "undefined"

/-- toId: the to address with its last dot segment replaced by the
matched id. -/
def dropLastJoin (toBase matchedId : String) : String :=
  joinWith "." ((splitOnChar '.' toBase).dropLast ++ [matchedId])

/-- The to address of a plain string tagRendering token: a dotted token
names a layer and a local id, a bare token the shared questions layer. -/
def plainTRToBase (tok : String) : String :=
  if strContainsChar tok '.' then
    "layers." ++ splitElemStr (splitOnChar '.' tok) 0 ++ ".tagRenderings." ++
      splitElemStr (splitOnChar '.' tok) 1
  else "layers.questions.tagRenderings." ++ tok

/-- The to address of a single builtin tagRendering token.  In the bare
case the source interpolates the whole tagRendering object instead of
the token (cache.ts line 664), producing "[object Object]" as the last
segment; the toId computation replaces that segment again, masking the
slip. -/
def builtinSingleTRToBase (tok : String) (trObj : Json) : String :=
  if strContainsChar tok '.' then
    "layers." ++ splitElemStr (splitOnChar '.' tok) 0 ++ ".tagRenderings." ++
      splitElemStr (splitOnChar '.' tok) 1
  else "layers.questions.tagRenderings." ++ jsToString trObj

/-- The target layer folder name of a tagRendering token. -/
def trTargetName (tok : String) : String :=
  if strContainsChar tok '.' then splitElemStr (splitOnChar '.' tok) 0 else "questions"

/-- From range path of a plain string tagRendering entry. -/
def trPlainFromPath (fullFile : Bool) (from_ : String) (idx : Nat) : List Seg :=
  if fullFile then
    [segOfSplit (splitOnChar '.' from_) 2, parseIntSeg (jsGetElem (splitOnChar '.' from_) 3),
      Seg.key "tagRenderings", Seg.idx idx]
  else [Seg.key "tagRenderings", Seg.idx idx]

/-- From range path of a single builtin tagRendering entry. -/
def trBuiltinFromPath (fullFile : Bool) (from_ : String) (idx : Nat) : List Seg :=
  trPlainFromPath fullFile from_ idx ++ [Seg.key "builtin"]

/-- From range path of a builtin-array tagRendering entry (the source
composes it differently from the single case: the whole from string is
spread as key segments). -/
def trBuiltinArrFromPath (fullFile : Bool) (from_ : String) (idx : Nat) : List Seg :=
  if fullFile then
    (splitOnChar '.' from_).map Seg.key ++ [Seg.key "tagRenderings", Seg.idx idx]
  else [Seg.key "tagRenderings", Seg.idx idx]

/-- One reference record pushed per match of a tagRendering token. -/
def mkTRRefItem (uri from_ : String) (fromPath : List Seg) (tok toBase toFilePath : String)
    (p : List Seg) (mid : String) : CacheItem :=
  { id := tok, filePath := uri, jsonPath := [Seg.key "tagRenderings"], type := .reference,
    reference := some {
      from_ := { id := from_, uri := some uri, range := some fromPath },
      to_ := { id := dropLastJoin toBase mid, uri := some toFilePath, range := some p },
      type := .tagRendering } }

/-- Resolution of one string tagRendering token: find the candidate
file, read and parse it, match the token, and emit one reference per
match.  Errors (candidate file absent, candidate text invalid, matching
failure) abort the enclosing tagRenderings loop before any push for
this token. -/
def tagRenderingRefItems (ws : Workspace) (uri from_ : String) (fromPath : List Seg)
    (tok toBase : String) : Except Unit (List CacheItem) :=
  match (findLayerFiles ws (trTargetName tok)).head? with
  | none => .error ()
  | some tf =>
      match tf.parsed with
      | none => .error ()
      | some tj =>
          match findTagRenderingInText tj tok with
          | .error e => .error e
          | .ok res =>
              .ok ((res.paths.zip res.ids).map
                (fun pi => mkTRRefItem uri from_ fromPath tok toBase tf.path pi.fst pi.snd))

/-- The concrete tagRendering entity record. -/
def mkTREntity (uri : String) (layerJson tr : Json) : CacheItem :=
  { id := jsToStringU (getField layerJson "id") ++ "." ++ jsToStringU (getField tr "id"),
    filePath := uri, jsonPath := [Seg.key "tagRenderings"], type := .tagRendering,
    reference := none }

/-- Loop over the elements of a builtin array of tagRendering tokens;
a non-string element has no includes method and throws. -/
def trBuiltinLoop (ws : Workspace) (uri from_ : String) (fromPath : List Seg) :
    List Json → Except (List CacheItem) (List CacheItem)
  | [] => .ok []
  | el :: rest =>
      match el with
      | .str bel =>
          match tagRenderingRefItems ws uri from_ fromPath bel (plainTRToBase bel) with
          | .error _ => .error []
          | .ok its =>
              match trBuiltinLoop ws uri from_ fromPath rest with
              | .error more => .error (its ++ more)
              | .ok more => .ok (its ++ more)
      | _ => .error []

/-- Processing of one entry of a tagRenderings array
(saveTagRenderingsToCache loop body).  The error side carries the items
pushed before the throw. -/
def trEntryItems (ws : Workspace) (uri from_ : String) (fullFile refsOnly : Bool)
    (layerJson : Json) (arr : List Json) (pos : Nat) (tr : Json) :
    Except (List CacheItem) (List CacheItem) :=
  let trIdx := jsIndexOf arr tr pos
  match tr with
  | .str s =>
      match tagRenderingRefItems ws uri from_ (trPlainFromPath fullFile from_ trIdx) s
          (plainTRToBase s) with
      | .error _ => .error []
      | .ok its => .ok its
  | .null => .error []
  | .num _ => .ok []
  | .bool _ => .ok []
  | tr =>
      match getField tr "builtin" with
      | some b =>
          if jsTruthy b then
            match b with
            | .str bs =>
                match tagRenderingRefItems ws uri from_
                    (trBuiltinFromPath fullFile from_ trIdx) bs
                    (builtinSingleTRToBase bs tr) with
                | .error _ => .error []
                | .ok its => .ok its
            | .arr els => trBuiltinLoop ws uri from_ (trBuiltinArrFromPath fullFile from_ trIdx) els
            | _ => .error []
          else if refsOnly then .ok [] else .ok [mkTREntity uri layerJson tr]
      | none => if refsOnly then .ok [] else .ok [mkTREntity uri layerJson tr]

/-- Loop over the tagRenderings entries, accumulating pushed items and
stopping at the first throw (the flag records completion). -/
def trLoop (ws : Workspace) (uri from_ : String) (fullFile refsOnly : Bool)
    (layerJson : Json) (arr : List Json) : List (Nat × Json) → List CacheItem × Bool
  | [] => ([], true)
  | (pos, tr) :: rest =>
      match trEntryItems ws uri from_ fullFile refsOnly layerJson arr pos tr with
      | .error its => (its, false)
      | .ok its =>
          let r := trLoop ws uri from_ fullFile refsOnly layerJson arr rest
          (its ++ r.1, r.2)

/-- Embedding of CacheWorker.saveTagRenderingsToCache.  The flag is
false when the loop threw (saveLayerTextToCache catches and logs). -/
def saveTagRenderingsItems (ws : Workspace) (uri from_ : String) (fullFile refsOnly : Bool)
    (layerJson : Json) : List CacheItem × Bool :=
  match getField layerJson "tagRenderings" with
  | none => ([], false)
  | some v =>
      match jsIterate v with
      | none => ([], false)
      | some entries => trLoop ws uri from_ fullFile refsOnly layerJson entries entries.enum

/-- From range path of a string filter entry. -/
def filterFromPath (fullFile : Bool) (from_ : String) (idx : Nat) : List Seg :=
  if fullFile then
    [segOfSplit (splitOnChar '.' from_) 2, parseIntSeg (jsGetElem (splitOnChar '.' from_) 3),
      Seg.key "filter", Seg.idx idx]
  else [Seg.key "filter", Seg.idx idx]

/-- findIndex of a filter id in the target document's filter array;
a null element makes the callback throw. -/
def jsFindFilterIdx (filterId : String) : List Json → Nat → Except Unit (Option Nat)
  | [], _ => .ok none
  | f :: rest, i =>
      match f with
      | .null => .error ()
      | f =>
          if jsIsStr (getField f "id") filterId then .ok (some i)
          else jsFindFilterIdx filterId rest (i + 1)

/-- The concrete filter entity record. -/
def mkFilterEntity (uri : String) (layerJson fl : Json) : CacheItem :=
  { id := jsToStringU (getField layerJson "id") ++ "." ++ jsToStringU (getField fl "id"),
    filePath := uri, jsonPath := [Seg.key "filters"], type := .filter,
    reference := none }

/-- Processing of one entry of a filter array (saveFiltersToCache loop
body). -/
def filterEntryItems (ws : Workspace) (uri from_ : String) (fullFile refsOnly : Bool)
    (layerJson : Json) (arr : List Json) (pos : Nat) (fl : Json) :
    Except (List CacheItem) (List CacheItem) :=
  let fIdx := jsIndexOf arr fl pos
  match fl with
  | .str s =>
      let parts := splitOnChar '.' s
      let filterId := if strContainsChar s '.' then splitElemStr parts 1 else s
      let toId := if strContainsChar s '.' then
          "layers." ++ splitElemStr parts 0 ++ ".filter." ++ filterId
        else "layers.filters.filter." ++ filterId
      let targetName := if strContainsChar s '.' then splitElemStr parts 0 else "filters"
      match (findLayerFiles ws targetName).head? with
      | none => .error []
      | some tf =>
          match tf.parsed with
          | none => .error []
          | some tj =>
              match getField tj "filter" with
              | some (.arr tfs) =>
                  match jsFindFilterIdx filterId tfs 0 with
                  | .error _ => .error []
                  | .ok none => .ok []
                  | .ok (some i) =>
                      .ok [{ id := s, filePath := uri, jsonPath := [Seg.key "filters"],
                             type := .reference,
                             reference := some {
                               from_ := { id := from_, uri := some uri,
                                          range := some (filterFromPath fullFile from_ fIdx) },
                               to_ := { id := toId, uri := some tf.path,
                                        range := some [Seg.key "filter", Seg.idx i] },
                               type := .filter } }]
              | _ => .error []
  | .null => if refsOnly then .ok [] else .error []
  | .num _ => .ok []
  | .bool _ => .ok []
  | fl => if refsOnly then .ok [] else .ok [mkFilterEntity uri layerJson fl]

/-- Loop over the filter entries. -/
def filterLoop (ws : Workspace) (uri from_ : String) (fullFile refsOnly : Bool)
    (layerJson : Json) (arr : List Json) : List (Nat × Json) → List CacheItem × Bool
  | [] => ([], true)
  | (pos, fl) :: rest =>
      match filterEntryItems ws uri from_ fullFile refsOnly layerJson arr pos fl with
      | .error its => (its, false)
      | .ok its =>
          let r := filterLoop ws uri from_ fullFile refsOnly layerJson arr rest
          (its ++ r.1, r.2)

/-- Embedding of CacheWorker.saveFiltersToCache. -/
def saveFiltersItems (ws : Workspace) (uri from_ : String) (fullFile refsOnly : Bool)
    (layerJson : Json) : List CacheItem × Bool :=
  match getField layerJson "filter" with
  | none => ([], false)
  | some v =>
      match jsIterate v with
      | none => ([], false)
      | some entries => filterLoop ws uri from_ fullFile refsOnly layerJson entries entries.enum

/-- Embedding of CacheWorker.saveLayerTextToCache: a special or geoJson
source forces references-only processing, then the tagRenderings and
filter sections run, each behind its truthiness guard and with its
exceptions caught and logged (partial pushes kept). -/
def saveLayerTextItems (ws : Workspace) (layerJson : Json) (uri from_ : String)
    (referencesOnly fullFile : Bool) : List CacheItem :=
  let refsOnly := referencesOnly || jsIsStr (getField layerJson "source") "special" ||
    jsTruthyU (getFieldU (getField layerJson "source") "geoJson")
  (if jsTruthyU (getField layerJson "tagRenderings") then
    (saveTagRenderingsItems ws uri from_ fullFile refsOnly layerJson).1
  else []) ++
  (if jsTruthyU (getField layerJson "filter") then
    (saveFiltersItems ws uri from_ fullFile refsOnly layerJson).1
  else [])

/-- One layer reference record of a theme. -/
def mkThemeLayerRef (ws : Workspace) (uri from_ : String) (fromPath : List Seg)
    (tok : String) : CacheItem :=
  { id := tok, filePath := uri, jsonPath := [Seg.key "layers"], type := .reference,
    reference := some {
      from_ := { id := from_, uri := some uri, range := some fromPath },
      to_ := { id := "layers." ++ tok, uri := ((findLayerFiles ws tok).head?).map (·.path),
               range := none },
      type := .layer } }

/-- Processing of one entry of a theme's layers array (saveThemeToCache
loop body): a string is a layer reference, a builtin property a single
reference or one per array element, anything else (apart from null,
whose member access throws) is scanned as an inline layer with
referencesOnly set. -/
def themeEntryItems (ws : Workspace) (uri themeId : String) (arr : List Json)
    (pos : Nat) (layer : Json) : Except (List CacheItem) (List CacheItem) :=
  let layerIdx := jsIndexOf arr layer pos
  let from_ := "themes." ++ themeId
  match layer with
  | .str s => .ok [mkThemeLayerRef ws uri from_ [Seg.key "layers", Seg.idx layerIdx] s]
  | .null => .error []
  | layer =>
      match getField layer "builtin" with
      | some b =>
          if jsTruthy b then
            match b with
            | .str bs =>
                .ok [mkThemeLayerRef ws uri from_
                  [Seg.key "layers", Seg.idx layerIdx, Seg.key "builtin"] bs]
            | .arr els =>
                .ok (els.enum.map (fun jel =>
                  mkThemeLayerRef ws uri from_
                    [Seg.key "layers", Seg.idx layerIdx, Seg.key "builtin",
                      Seg.idx (jsIndexOf els jel.snd jel.fst)]
                    (jsToString jel.snd)))
            | _ => .error []
          else
            .ok (saveLayerTextItems ws layer uri
              ("themes." ++ themeId ++ ".layers." ++ toString layerIdx) true true)
      | none =>
          .ok (saveLayerTextItems ws layer uri
            ("themes." ++ themeId ++ ".layers." ++ toString layerIdx) true true)

/-- Loop over the theme's layers entries; a throw keeps earlier pushes
and aborts the loop (and with it the timestamp update). -/
def themeLoop (ws : Workspace) (uri themeId : String) (arr : List Json) :
    List (Nat × Json) → List CacheItem × Bool
  | [] => ([], true)
  | (pos, layer) :: rest =>
      match themeEntryItems ws uri themeId arr pos layer with
      | .error its => (its, false)
      | .ok its =>
          let r := themeLoop ws uri themeId arr rest
          (its ++ r.1, r.2)

/-- Embedding of CacheWorker.saveThemeToCache: records produced by a
theme file scan, with a flag telling whether the scan ran to completion
(only then is the file timestamp advanced). -/
def saveThemeItems (ws : Workspace) (f : WFile) : List CacheItem × Bool :=
  match f.parsed with
  | none => ([], false)
  | some j =>
      let themeId := jsToStringU (getField j "id")
      match getField j "layers" with
      | none => ([], false)
      | some lv =>
          match jsIterate lv with
          | none => ([], false)
          | some entries => themeLoop ws f.path themeId entries entries.enum

/-- Embedding of CacheWorker.saveLayerToCache: the favourite layer
returns early (after the caller's delete, before the timestamp update);
otherwise the file's text is scanned as a layer.  Exceptions inside the
two sections are caught there, so a successful parse always reaches the
timestamp update. -/
def saveLayerItems (ws : Workspace) (f : WFile) : List CacheItem × Bool :=
  if strEndsWith f.path "favourite.json" then ([], false)
  else
    match f.parsed with
    | none => ([], false)
    | some j =>
        (saveLayerTextItems ws j f.path
          ("layers." ++ (splitOnChar '.' ((pathSegs f.path).getLastD "")).headD "")
          false false, true)

/-- The records a file scan produces, with the completion flag. -/
def fileRecords (ws : Workspace) (asset : String) (f : WFile) : List CacheItem × Bool :=
  if asset = "themes" then saveThemeItems ws f else saveLayerItems ws f

/-- Embedding of CacheWorker.deleteFileFromCache: drop the items tagged
with the path; the files map is not touched. -/
def deleteFileFromCache (p : String) (c : CacheData) : CacheData :=
  { items := c.items.filter (fun it => it.filePath ≠ p), files := c.files }

/-- Embedding of CacheWorker.onDeleted (the deleted change
notification). -/
def onDeleted (p : String) (c : CacheData) : CacheData :=
  deleteFileFromCache p c

/-- Embedding of CacheWorker.saveFileToCache: return early unless the
path matches the asset regex, otherwise delete the file's records first
and then scan the file, appending the new records and advancing the
file's timestamp exactly when the scan completed. -/
def saveFileToCache (ws : Workspace) (f : WFile) (c : CacheData) : CacheData :=
  match assetMatch f.path with
  | none => c
  | some asset =>
      let c0 := deleteFileFromCache f.path c
      let r := fileRecords ws asset f
      { items := c0.items ++ r.1,
        files := if r.2 then setTs c0.files f.path f.mtime else c0.files }

/-- Exclusions of CacheWorker.scanWorkspace. -/
def excludedFile (p : String) : Bool :=
  strEndsWith p "license_info.json" || strEndsWith p ".proto.json" ||
  strEndsWith p "layers/favourite/favourite.json"

/-- The scanWorkspace loop over the files found by the glob: skip
excluded files, rescan (and count as changed) files whose on-disk mtime
exceeds the stored timestamp (0 when absent), count the rest as
unchanged. -/
def scanLoop (ws : Workspace) : List WFile → CacheData → CacheData × Nat × Nat
  | [], c => (c, 0, 0)
  | f :: rest, c =>
      if excludedFile f.path then scanLoop ws rest c
      else if lookupTs c.files f.path < f.mtime then
        let r := scanLoop ws rest (saveFileToCache ws f c)
        (r.1, r.2.1 + 1, r.2.2)
      else
        let r := scanLoop ws rest c
        (r.1, r.2.1, r.2.2 + 1)

/-- Embedding of CacheWorker.scanWorkspace: cache after the rescan,
changed count, unchanged count. -/
def scanWorkspace (ws : Workspace) (c : CacheData) : CacheData × Nat × Nat :=
  scanLoop ws (ws.filter (fun f => globAssets f.path)) c

/-- Item filter behind Cache.getTagRenderings and Cache.getFilters (the
completion-item wrapping is editor surface, out of scope). -/
def entityItemsOf (t : IType) (c : CacheData) : List CacheItem :=
  c.items.filter (fun it => it.type = t)

/-- Embedding of Cache.getReferences. -/
def getReferences (toId : String) (c : CacheData) : List CacheItem :=
  c.items.filter (fun it =>
    it.type = IType.reference &&
      match it.reference with
      | some r => r.to_.id = toId
      | none => false)

/-- The spec's qualified address of a filter entity, written from the
spec's words (QualifiedId grammar, section 3): layers.LAYERID.filter.FILTERID.
Kept separate from the embedding to compare the two in claim C6. -/
def specFilterQualifiedId (layerId filterId : String) : String :=
  "layers." ++ layerId ++ ".filter." ++ filterId

/-- Shape of every item a layer-text section scan can push: tagged with
the scanned file, and either a reference whose from side is the passed
from address, or (only when references-only is off) a concrete entity
of the section's kind. -/
def scanItemOk (uri from_ : String) (refsOnly : Bool) (et : IType) (it : CacheItem) : Prop :=
  it.filePath = uri ∧
  ((it.type = IType.reference ∧ ∃ r, it.reference = some r ∧ r.from_.id = from_) ∨
   (refsOnly = false ∧ it.type = et ∧ it.reference = none))

lemma tagRenderingRefItems_shape {ws : Workspace} {uri from_ : String} {fp : List Seg}
    {tok tb : String} {its : List CacheItem}
    (h : tagRenderingRefItems ws uri from_ fp tok tb = .ok its) :
    ∀ it ∈ its, it.filePath = uri ∧ it.type = IType.reference ∧
      ∃ r, it.reference = some r ∧ r.from_.id = from_ := by
  unfold tagRenderingRefItems at h
  split at h
  · cases h
  · rename_i tf _
    split at h
    · cases h
    · split at h
      · cases h
      · rename_i res _
        injection h with h
        subst h
        intro it hm
        rcases List.mem_map.mp hm with ⟨pi, _, rfl⟩
        refine ⟨rfl, rfl, ?_⟩
        exact ⟨_, rfl, rfl⟩

/-- Items present in the cache after an entry was processed: the pushes
of a completed entry or the pushes made before its throw. -/
def exPayload : Except (List CacheItem) (List CacheItem) → List CacheItem
  | .error l => l
  | .ok l => l

lemma trBuiltinLoop_shape {ws : Workspace} {uri from_ : String} {fp : List Seg} :
    ∀ els : List Json, ∀ it ∈ exPayload (trBuiltinLoop ws uri from_ fp els),
      it.filePath = uri ∧ it.type = IType.reference ∧
        ∃ r, it.reference = some r ∧ r.from_.id = from_ := by
  intro els
  induction els with
  | nil => simp [trBuiltinLoop, exPayload]
  | cons el rest ih =>
    intro it hm
    cases el with
    | str bel =>
      simp only [trBuiltinLoop] at hm
      cases h : tagRenderingRefItems ws uri from_ fp bel (plainTRToBase bel) with
      | error e => rw [h] at hm; simp [exPayload] at hm
      | ok its =>
        rw [h] at hm
        cases h2 : trBuiltinLoop ws uri from_ fp rest with
        | error more =>
          rw [h2] at hm
          simp only [exPayload, List.mem_append] at hm
          rcases hm with hm | hm
          · exact tagRenderingRefItems_shape h it hm
          · exact ih it (by rw [h2]; exact hm)
        | ok more =>
          rw [h2] at hm
          simp only [exPayload, List.mem_append] at hm
          rcases hm with hm | hm
          · exact tagRenderingRefItems_shape h it hm
          · exact ih it (by rw [h2]; exact hm)
    | num n => simp [trBuiltinLoop, exPayload] at hm
    | bool b => simp [trBuiltinLoop, exPayload] at hm
    | null => simp [trBuiltinLoop, exPayload] at hm
    | arr xs => simp [trBuiltinLoop, exPayload] at hm
    | obj fs => simp [trBuiltinLoop, exPayload] at hm

lemma trEntryItems_shape {ws : Workspace} {uri from_ : String} {fullFile refsOnly : Bool}
    {layerJson : Json} {arr : List Json} {pos : Nat} {tr : Json} :
    ∀ it ∈ exPayload (trEntryItems ws uri from_ fullFile refsOnly layerJson arr pos tr),
      it.filePath = uri ∧
        ((it.type = IType.reference ∧ ∃ r, it.reference = some r ∧ r.from_.id = from_) ∨
         (refsOnly = false ∧ it.type = IType.tagRendering ∧ it.reference = none)) := by
  intro it hm
  cases tr with
  | str s =>
    simp only [trEntryItems] at hm
    cases h : tagRenderingRefItems ws uri from_
        (trPlainFromPath fullFile from_ (jsIndexOf arr (Json.str s) pos)) s
        (plainTRToBase s) with
    | error e => rw [h] at hm; simp [exPayload] at hm
    | ok its =>
      rw [h] at hm
      simp only [exPayload] at hm
      have := tagRenderingRefItems_shape h it hm
      exact ⟨this.1, Or.inl this.2⟩
  | null => simp [trEntryItems, exPayload] at hm
  | num n => simp [trEntryItems, exPayload] at hm
  | bool b => simp [trEntryItems, exPayload] at hm
  | arr xs =>
    simp only [trEntryItems] at hm
    have hb : getField (Json.arr xs) "builtin" = none := rfl
    rw [hb] at hm
    by_cases hro : refsOnly
    · simp [hro, exPayload] at hm
    · simp only [Bool.not_eq_true] at hro
      simp [hro, exPayload, mkTREntity] at hm
      subst hm
      exact ⟨rfl, Or.inr ⟨hro, rfl, rfl⟩⟩
  | obj fs =>
    simp only [trEntryItems] at hm
    rcases hb : getField (Json.obj fs) "builtin" with _ | b
    · rw [hb] at hm
      by_cases hro : refsOnly
      · simp [hro, exPayload] at hm
      · simp only [Bool.not_eq_true] at hro
        simp [hro, exPayload, mkTREntity] at hm
        subst hm
        exact ⟨rfl, Or.inr ⟨hro, rfl, rfl⟩⟩
    · rw [hb] at hm
      dsimp only at hm
      by_cases ht : jsTruthy b
      · rw [if_pos ht] at hm
        cases b with
        | str bs =>
          dsimp only at hm
          cases h : tagRenderingRefItems ws uri from_
              (trBuiltinFromPath fullFile from_ (jsIndexOf arr (Json.obj fs) pos)) bs
              (builtinSingleTRToBase bs (Json.obj fs)) with
          | error e => rw [h] at hm; simp [exPayload] at hm
          | ok its =>
            rw [h] at hm
            simp only [exPayload] at hm
            have := tagRenderingRefItems_shape h it hm
            exact ⟨this.1, Or.inl this.2⟩
        | arr els =>
          dsimp only at hm
          have := trBuiltinLoop_shape els it hm
          exact ⟨this.1, Or.inl this.2⟩
        | num n => dsimp only at hm; simp [exPayload] at hm
        | bool c => dsimp only at hm; simp [exPayload] at hm
        | null => dsimp only at hm; simp [exPayload] at hm
        | obj gs => dsimp only at hm; simp [exPayload] at hm
      · rw [if_neg ht] at hm
        by_cases hro : refsOnly
        · simp [hro, exPayload] at hm
        · simp only [Bool.not_eq_true] at hro
          simp [hro, exPayload, mkTREntity] at hm
          subst hm
          exact ⟨rfl, Or.inr ⟨hro, rfl, rfl⟩⟩

lemma trLoop_shape {ws : Workspace} {uri from_ : String} {fullFile refsOnly : Bool}
    {layerJson : Json} {arr : List Json} :
    ∀ l : List (Nat × Json),
      ∀ it ∈ (trLoop ws uri from_ fullFile refsOnly layerJson arr l).1,
      it.filePath = uri ∧
        ((it.type = IType.reference ∧ ∃ r, it.reference = some r ∧ r.from_.id = from_) ∨
         (refsOnly = false ∧ it.type = IType.tagRendering ∧ it.reference = none)) := by
  intro l
  induction l with
  | nil => simp [trLoop]
  | cons pt rest ih =>
    intro it hm
    obtain ⟨pos, tr⟩ := pt
    simp only [trLoop] at hm
    cases h : trEntryItems ws uri from_ fullFile refsOnly layerJson arr pos tr with
    | error its =>
      rw [h] at hm
      exact trEntryItems_shape it (by rw [h]; exact hm)
    | ok its =>
      rw [h] at hm
      dsimp only at hm
      rcases List.mem_append.mp hm with hm | hm
      · exact trEntryItems_shape it (by rw [h]; exact hm)
      · exact ih it hm

lemma saveTagRenderingsItems_shape {ws : Workspace} {uri from_ : String}
    {fullFile refsOnly : Bool} {layerJson : Json} :
    ∀ it ∈ (saveTagRenderingsItems ws uri from_ fullFile refsOnly layerJson).1,
      it.filePath = uri ∧
        ((it.type = IType.reference ∧ ∃ r, it.reference = some r ∧ r.from_.id = from_) ∨
         (refsOnly = false ∧ it.type = IType.tagRendering ∧ it.reference = none)) := by
  intro it hm
  unfold saveTagRenderingsItems at hm
  split at hm
  · simp at hm
  · split at hm
    · simp at hm
    · exact trLoop_shape _ it hm

lemma filterEntryItems_shape {ws : Workspace} {uri from_ : String} {fullFile refsOnly : Bool}
    {layerJson : Json} {arr : List Json} {pos : Nat} {fl : Json} :
    ∀ it ∈ exPayload (filterEntryItems ws uri from_ fullFile refsOnly layerJson arr pos fl),
      it.filePath = uri ∧
        ((it.type = IType.reference ∧ ∃ r, it.reference = some r ∧ r.from_.id = from_) ∨
         (refsOnly = false ∧ it.type = IType.filter ∧ it.reference = none)) := by
  intro it hm
  cases fl with
  | str s =>
    simp only [filterEntryItems] at hm
    split at hm
    · simp [exPayload] at hm
    · split at hm
      · simp [exPayload] at hm
      · split at hm
        · split at hm
          · simp [exPayload] at hm
          · simp [exPayload] at hm
          · simp only [exPayload, List.mem_singleton] at hm
            subst hm
            exact ⟨rfl, Or.inl ⟨rfl, _, rfl, rfl⟩⟩
        · simp [exPayload] at hm
  | null =>
    simp only [filterEntryItems] at hm
    by_cases hro : refsOnly
    · simp [hro, exPayload] at hm
    · simp only [Bool.not_eq_true] at hro
      simp [hro, exPayload] at hm
  | num n => simp [filterEntryItems, exPayload] at hm
  | bool b => simp [filterEntryItems, exPayload] at hm
  | arr xs =>
    simp only [filterEntryItems] at hm
    by_cases hro : refsOnly
    · simp [hro, exPayload] at hm
    · simp only [Bool.not_eq_true] at hro
      simp [hro, exPayload, mkFilterEntity] at hm
      subst hm
      exact ⟨rfl, Or.inr ⟨hro, rfl, rfl⟩⟩
  | obj fs =>
    simp only [filterEntryItems] at hm
    by_cases hro : refsOnly
    · simp [hro, exPayload] at hm
    · simp only [Bool.not_eq_true] at hro
      simp [hro, exPayload, mkFilterEntity] at hm
      subst hm
      exact ⟨rfl, Or.inr ⟨hro, rfl, rfl⟩⟩

lemma filterLoop_shape {ws : Workspace} {uri from_ : String} {fullFile refsOnly : Bool}
    {layerJson : Json} {arr : List Json} :
    ∀ l : List (Nat × Json),
      ∀ it ∈ (filterLoop ws uri from_ fullFile refsOnly layerJson arr l).1,
      it.filePath = uri ∧
        ((it.type = IType.reference ∧ ∃ r, it.reference = some r ∧ r.from_.id = from_) ∨
         (refsOnly = false ∧ it.type = IType.filter ∧ it.reference = none)) := by
  intro l
  induction l with
  | nil => simp [filterLoop]
  | cons pt rest ih =>
    intro it hm
    obtain ⟨pos, fl⟩ := pt
    simp only [filterLoop] at hm
    cases h : filterEntryItems ws uri from_ fullFile refsOnly layerJson arr pos fl with
    | error its =>
      rw [h] at hm
      exact filterEntryItems_shape it (by rw [h]; exact hm)
    | ok its =>
      rw [h] at hm
      dsimp only at hm
      rcases List.mem_append.mp hm with hm | hm
      · exact filterEntryItems_shape it (by rw [h]; exact hm)
      · exact ih it hm

lemma saveFiltersItems_shape {ws : Workspace} {uri from_ : String}
    {fullFile refsOnly : Bool} {layerJson : Json} :
    ∀ it ∈ (saveFiltersItems ws uri from_ fullFile refsOnly layerJson).1,
      it.filePath = uri ∧
        ((it.type = IType.reference ∧ ∃ r, it.reference = some r ∧ r.from_.id = from_) ∨
         (refsOnly = false ∧ it.type = IType.filter ∧ it.reference = none)) := by
  intro it hm
  unfold saveFiltersItems at hm
  split at hm
  · simp at hm
  · split at hm
    · simp at hm
    · exact filterLoop_shape _ it hm

lemma saveLayerTextItems_shape {ws : Workspace} {layerJson : Json} {uri from_ : String}
    {referencesOnly fullFile : Bool} :
    ∀ it ∈ saveLayerTextItems ws layerJson uri from_ referencesOnly fullFile,
      it.filePath = uri ∧
        ((it.type = IType.reference ∧ ∃ r, it.reference = some r ∧ r.from_.id = from_) ∨
         (referencesOnly = false ∧
           (it.type = IType.tagRendering ∨ it.type = IType.filter) ∧ it.reference = none)) := by
  intro it hm
  unfold saveLayerTextItems at hm
  rcases List.mem_append.mp hm with hm | hm
  · split at hm
    · have h := saveTagRenderingsItems_shape it hm
      refine ⟨h.1, ?_⟩
      rcases h.2 with h2 | h2
      · exact Or.inl h2
      · refine Or.inr ⟨?_, Or.inl h2.2.1, h2.2.2⟩
        rcases Bool.or_eq_false_iff.mp h2.1 with ⟨h3, _⟩
        exact (Bool.or_eq_false_iff.mp h3).1
    · simp at hm
  · split at hm
    · have h := saveFiltersItems_shape it hm
      refine ⟨h.1, ?_⟩
      rcases h.2 with h2 | h2
      · exact Or.inl h2
      · refine Or.inr ⟨?_, Or.inr h2.2.1, h2.2.2⟩
        rcases Bool.or_eq_false_iff.mp h2.1 with ⟨h3, _⟩
        exact (Bool.or_eq_false_iff.mp h3).1
    · simp at hm

lemma themeEntryItems_shape {ws : Workspace} {uri themeId : String} {arr : List Json}
    {pos : Nat} {layer : Json} :
    ∀ it ∈ exPayload (themeEntryItems ws uri themeId arr pos layer),
      it.filePath = uri ∧ it.type = IType.reference ∧
        ∃ r, it.reference = some r ∧
          (r.from_.id = "themes." ++ themeId ∨
           ∃ n : Nat, r.from_.id = "themes." ++ themeId ++ ".layers." ++ toString n) := by
  intro it hm
  have inlineCase : ∀ (lj : Json) (n : Nat),
      it ∈ saveLayerTextItems ws lj uri ("themes." ++ themeId ++ ".layers." ++ toString n)
        true true →
      it.filePath = uri ∧ it.type = IType.reference ∧
        ∃ r, it.reference = some r ∧
          (r.from_.id = "themes." ++ themeId ∨
           ∃ n : Nat, r.from_.id = "themes." ++ themeId ++ ".layers." ++ toString n) := by
    intro lj n hm2
    have h := saveLayerTextItems_shape it hm2
    refine ⟨h.1, ?_⟩
    rcases h.2 with ⟨ht, r, hr, hf⟩ | h2
    · exact ⟨ht, r, hr, Or.inr ⟨n, hf⟩⟩
    · cases h2.1
  cases layer with
  | str s =>
    simp only [themeEntryItems, exPayload, List.mem_singleton] at hm
    subst hm
    exact ⟨rfl, rfl, _, rfl, Or.inl rfl⟩
  | null => simp [themeEntryItems, exPayload] at hm
  | num n =>
    simp only [themeEntryItems] at hm
    exact inlineCase _ _ hm
  | bool b =>
    simp only [themeEntryItems] at hm
    exact inlineCase _ _ hm
  | arr xs =>
    simp only [themeEntryItems] at hm
    exact inlineCase _ _ hm
  | obj fs =>
    simp only [themeEntryItems] at hm
    rcases hb : getField (Json.obj fs) "builtin" with _ | b
    · rw [hb] at hm
      exact inlineCase _ _ hm
    · rw [hb] at hm
      dsimp only at hm
      by_cases ht : jsTruthy b
      · rw [if_pos ht] at hm
        cases b with
        | str bs =>
          simp only [exPayload, List.mem_singleton] at hm
          subst hm
          exact ⟨rfl, rfl, _, rfl, Or.inl rfl⟩
        | arr els =>
          simp only [exPayload] at hm
          rcases List.mem_map.mp hm with ⟨jel, _, rfl⟩
          exact ⟨rfl, rfl, _, rfl, Or.inl rfl⟩
        | num n => simp [exPayload] at hm
        | bool c => simp [exPayload] at hm
        | null => simp [exPayload] at hm
        | obj gs => simp [exPayload] at hm
      · rw [if_neg ht] at hm
        exact inlineCase _ _ hm

lemma themeLoop_shape {ws : Workspace} {uri themeId : String} {arr : List Json} :
    ∀ l : List (Nat × Json), ∀ it ∈ (themeLoop ws uri themeId arr l).1,
      it.filePath = uri ∧ it.type = IType.reference ∧
        ∃ r, it.reference = some r ∧
          (r.from_.id = "themes." ++ themeId ∨
           ∃ n : Nat, r.from_.id = "themes." ++ themeId ++ ".layers." ++ toString n) := by
  intro l
  induction l with
  | nil => simp [themeLoop]
  | cons pt rest ih =>
    intro it hm
    obtain ⟨pos, layer⟩ := pt
    simp only [themeLoop] at hm
    cases h : themeEntryItems ws uri themeId arr pos layer with
    | error its =>
      rw [h] at hm
      exact themeEntryItems_shape it (by rw [h]; exact hm)
    | ok its =>
      rw [h] at hm
      dsimp only at hm
      rcases List.mem_append.mp hm with hm | hm
      · exact themeEntryItems_shape it (by rw [h]; exact hm)
      · exact ih it hm

lemma saveThemeItems_shape {ws : Workspace} {f : WFile} :
    ∀ it ∈ (saveThemeItems ws f).1,
      it.filePath = f.path ∧ it.type = IType.reference ∧
        ∃ r, it.reference = some r ∧
          (r.from_.id = "themes." ++ jsToStringU (getField ((f.parsed).getD Json.null) "id") ∨
           ∃ n : Nat, r.from_.id = "themes." ++
             jsToStringU (getField ((f.parsed).getD Json.null) "id") ++
             ".layers." ++ toString n) := by
  intro it hm
  unfold saveThemeItems at hm
  split at hm
  · simp at hm
  · rename_i j hj
    split at hm
    · simp at hm
    · split at hm
      · simp at hm
      · have := themeLoop_shape _ it hm
        rw [hj]
        exact this

lemma saveLayerItems_shape {ws : Workspace} {f : WFile} :
    ∀ it ∈ (saveLayerItems ws f).1, it.filePath = f.path := by
  intro it hm
  unfold saveLayerItems at hm
  split at hm
  · simp at hm
  · split at hm
    · simp at hm
    · exact (saveLayerTextItems_shape it hm).1

lemma fileRecords_filePath {ws : Workspace} {asset : String} {f : WFile} :
    ∀ it ∈ (fileRecords ws asset f).1, it.filePath = f.path := by
  intro it hm
  unfold fileRecords at hm
  split at hm
  · exact (saveThemeItems_shape it hm).1
  · exact saveLayerItems_shape it hm

lemma saveFileToCache_items (ws : Workspace) (f : WFile) (c : CacheData) (asset : String)
    (h : assetMatch f.path = some asset) :
    (saveFileToCache ws f c).items =
      c.items.filter (fun it => it.filePath ≠ f.path) ++ (fileRecords ws asset f).1 := by
  unfold saveFileToCache
  rw [h]
  rfl

/-- C1: saveFileToCache is delete-before-insert: afterwards the store
holds exactly the fresh scan records for the file and none of its prior
records, every other file's records are unchanged, and running the same
scan again on the unchanged workspace reproduces the identical item
list (idempotent rescanning, no duplication). -/
theorem c1_replace_file_exact (ws : Workspace) (f : WFile) (c : CacheData) (asset : String)
    (h : assetMatch f.path = some asset) :
    ((saveFileToCache ws f c).items.filter (fun it => it.filePath = f.path) =
      (fileRecords ws asset f).1) ∧
    ((saveFileToCache ws f c).items.filter (fun it => it.filePath ≠ f.path) =
      c.items.filter (fun it => it.filePath ≠ f.path)) ∧
    (saveFileToCache ws f (saveFileToCache ws f c)).items = (saveFileToCache ws f c).items := by
  have hrec : ∀ it ∈ (fileRecords ws asset f).1, it.filePath = f.path := fileRecords_filePath
  have hrecEq : (fileRecords ws asset f).1.filter (fun it => it.filePath = f.path) =
      (fileRecords ws asset f).1 := by
    rw [List.filter_eq_self]
    intro a ha
    simp [hrec a ha]
  have hrecNe : (fileRecords ws asset f).1.filter (fun it => it.filePath ≠ f.path) = [] := by
    rw [List.filter_eq_nil_iff]
    intro a ha
    simp [hrec a ha]
  have hcEq : (c.items.filter (fun it => it.filePath ≠ f.path)).filter
      (fun it => it.filePath = f.path) = [] := by
    rw [List.filter_eq_nil_iff]
    intro a ha
    have := List.of_mem_filter ha
    simp at this
    simp [this]
  have hcNe : (c.items.filter (fun it => it.filePath ≠ f.path)).filter
      (fun it => it.filePath ≠ f.path) = c.items.filter (fun it => it.filePath ≠ f.path) := by
    rw [List.filter_eq_self]
    intro a ha
    have := List.of_mem_filter ha
    simpa using this
  refine ⟨?_, ?_, ?_⟩
  · rw [saveFileToCache_items ws f c asset h, List.filter_append, hrecEq, hcEq]
    simp
  · rw [saveFileToCache_items ws f c asset h, List.filter_append, hrecNe, hcNe]
    simp
  · rw [saveFileToCache_items ws f (saveFileToCache ws f c) asset h,
      saveFileToCache_items ws f c asset h, List.filter_append, hrecNe, hcNe]
    simp

/-- Concrete theme of scenario A. -/
def cyclofixTheme : Json :=
  .obj [("id", .str "cyclofix"), ("layers", .arr [.str "bicycle_rental"])]

def cyclofixFile : WFile :=
  ⟨"/w/assets/themes/cyclofix/cyclofix.json", 10, some cyclofixTheme⟩

def bicycleRentalFile : WFile :=
  ⟨"/w/assets/layers/bicycle_rental/bicycle_rental.json", 3,
    some (.obj [("id", .str "bicycle_rental")])⟩

def emptyCache : CacheData := ⟨[], []⟩

theorem c1_replace_file_exact_witness :
    ((saveFileToCache [cyclofixFile] cyclofixFile emptyCache).items.filter
        (fun it => it.filePath = cyclofixFile.path) =
      (fileRecords [cyclofixFile] "themes" cyclofixFile).1) ∧
    ((saveFileToCache [cyclofixFile] cyclofixFile emptyCache).items.filter
        (fun it => it.filePath ≠ cyclofixFile.path) =
      emptyCache.items.filter (fun it => it.filePath ≠ cyclofixFile.path)) ∧
    (saveFileToCache [cyclofixFile] cyclofixFile
        (saveFileToCache [cyclofixFile] cyclofixFile emptyCache)).items =
      (saveFileToCache [cyclofixFile] cyclofixFile emptyCache).items :=
  c1_replace_file_exact [cyclofixFile] cyclofixFile emptyCache "themes" (by decide)

/-- C5: scanning the scenario-A theme produces exactly one reference
record of kind layer, from themes.cyclofix to layers.bicycle_rental,
whether or not the bicycle_rental layer file exists in the workspace
(the to uri is undefined in the first case and the layer file in the
second; the to qualified id is the same in both). -/
theorem c5_scenario_a :
    (saveFileToCache [cyclofixFile] cyclofixFile emptyCache).items =
      [{ id := "bicycle_rental", filePath := cyclofixFile.path,
         jsonPath := [Seg.key "layers"], type := IType.reference,
         reference := some {
           from_ := { id := "themes.cyclofix", uri := some cyclofixFile.path,
                      range := some [Seg.key "layers", Seg.idx 0] },
           to_ := { id := "layers.bicycle_rental", uri := none, range := none },
           type := RType.layer } }] ∧
    (saveFileToCache [cyclofixFile, bicycleRentalFile] cyclofixFile emptyCache).items =
      [{ id := "bicycle_rental", filePath := cyclofixFile.path,
         jsonPath := [Seg.key "layers"], type := IType.reference,
         reference := some {
           from_ := { id := "themes.cyclofix", uri := some cyclofixFile.path,
                      range := some [Seg.key "layers", Seg.idx 0] },
           to_ := { id := "layers.bicycle_rental", uri := some bicycleRentalFile.path,
                    range := none },
           type := RType.layer } }] := by
  constructor <;> rfl

/-- C2 (amended): when a matched file's text is not valid JSON, the
scan aborts without inserting anything and without advancing the
timestamp, but the file's prior records are not left untouched: they
were already deleted, because saveFileToCache deletes before parsing. -/
theorem c2_parse_failure_clears (ws : Workspace) (f : WFile) (c : CacheData) (asset : String)
    (hp : f.parsed = none) (h : assetMatch f.path = some asset) :
    (saveFileToCache ws f c).items = c.items.filter (fun it => it.filePath ≠ f.path) ∧
    (saveFileToCache ws f c).files = c.files := by
  have hfr : fileRecords ws asset f = ([], false) := by
    by_cases ha : asset = "themes"
    · simp [fileRecords, ha, saveThemeItems, hp]
    · simp only [fileRecords, ha, if_false, saveLayerItems, hp]
      split <;> rfl
  constructor
  · rw [saveFileToCache_items ws f c asset h, hfr]
    simp
  · unfold saveFileToCache
    rw [h]
    simp [hfr, deleteFileFromCache]

/-- Prior record of an invalid-JSON scenario. -/
def staleThemeItem : CacheItem :=
  { id := "old", filePath := "/w/assets/themes/t/t.json", jsonPath := [],
    type := IType.reference, reference := none }

def invalidThemeFile : WFile := ⟨"/w/assets/themes/t/t.json", 9, none⟩

def staleCache : CacheData := ⟨[staleThemeItem], [("q", 7)]⟩

/-- C2 counterexample: on a parse failure the file's previously stored
records are not left untouched — the store held one record for the file
before the scan and none after it. -/
theorem c2_counterexample :
    staleCache.items.filter (fun it => it.filePath = invalidThemeFile.path) =
      [staleThemeItem] ∧
    (saveFileToCache [invalidThemeFile] invalidThemeFile staleCache).items.filter
      (fun it => it.filePath = invalidThemeFile.path) = [] := by
  constructor <;> rfl

theorem c2_parse_failure_clears_witness :
    (saveFileToCache [invalidThemeFile] invalidThemeFile staleCache).items =
      staleCache.items.filter (fun it => it.filePath ≠ invalidThemeFile.path) ∧
    (saveFileToCache [invalidThemeFile] invalidThemeFile staleCache).files =
      staleCache.files :=
  c2_parse_failure_clears [invalidThemeFile] invalidThemeFile staleCache "themes"
    rfl (by decide)

/-- C9 (amended): the deletion notification drops every record tagged
with the path, but the fileTimestamps entry is not removed — the files
map is left entirely unchanged. -/
theorem c9_remove_file_keeps_timestamp (p : String) (c : CacheData) :
    (onDeleted p c).items = c.items.filter (fun it => it.filePath ≠ p) ∧
    (onDeleted p c).files = c.files := by
  constructor <;> rfl

def deletedFileCache : CacheData :=
  ⟨[{ id := "x", filePath := "/w/assets/layers/p/p.json", jsonPath := [],
      type := IType.filter, reference := none }],
   [("/w/assets/layers/p/p.json", 5)]⟩

/-- C9 counterexample: after the deletion notification for a path, the
store still holds that path's fileTimestamps entry (the claim says it
is removed together with the records). -/
theorem c9_counterexample :
    (onDeleted "/w/assets/layers/p/p.json" deletedFileCache).items = [] ∧
    (onDeleted "/w/assets/layers/p/p.json" deletedFileCache).files =
      [("/w/assets/layers/p/p.json", 5)] := by
  constructor <;> rfl

/-- Layer of scenario D. -/
def brFilterLayer : Json :=
  .obj [("id", .str "bicycle_rental"), ("filter", .arr [.obj [("id", .str "f1")]])]

def brFilterLayerFile : WFile :=
  ⟨"/w/assets/layers/bicycle_rental/bicycle_rental.json", 2, some brFilterLayer⟩

/-- C6 counterexample: the scenario-D scan produces exactly one concrete
filter entity, but its stored qualified id is bicycle_rental.f1, not
the spec's layers.bicycle_rental.filter.f1. -/
theorem c6_counterexample :
    (saveFileToCache [brFilterLayerFile] brFilterLayerFile emptyCache).items =
      [{ id := "bicycle_rental.f1", filePath := brFilterLayerFile.path,
         jsonPath := [Seg.key "filters"], type := IType.filter, reference := none }] ∧
    "bicycle_rental.f1" ≠ specFilterQualifiedId "bicycle_rental" "f1" := by
  constructor
  · rfl
  · decide

/-- C6 (amended): scanning a non-inline layer whose filter array holds
the single plain object with id fid produces exactly one concrete
filter entity record, whose stored id is layerId.fid — the spec's
canonical layers.layerId.filter.fid address with the layers and filter
segments elided. -/
theorem c6_filter_entity (ws : Workspace) (layerJson : Json) (uri from_ : String)
    (fullFile : Bool) (layerId fid : String)
    (hid : getField layerJson "id" = some (.str layerId))
    (hsrc : getField layerJson "source" = none)
    (htr : getField layerJson "tagRenderings" = none)
    (hf : getField layerJson "filter" = some (.arr [Json.obj [("id", Json.str fid)]])) :
    saveLayerTextItems ws layerJson uri from_ false fullFile =
      [{ id := layerId ++ "." ++ fid, filePath := uri, jsonPath := [Seg.key "filters"],
         type := IType.filter, reference := none }] := by
  unfold saveLayerTextItems
  rw [hsrc, htr, hf]
  simp only [jsIsStr, jsTruthyU, getFieldU, jsTruthy, Bool.or_false, Bool.false_or,
    if_false, if_true, List.nil_append]
  unfold saveFiltersItems
  rw [hf]
  simp only [jsIterate, List.enum]
  unfold filterLoop filterEntryItems
  simp only [mkFilterEntity]
  rw [hid]
  simp [jsToStringU, jsToString, getField, filterLoop]

theorem c6_filter_entity_witness :
    saveLayerTextItems [] brFilterLayer "/w/assets/layers/bicycle_rental/bicycle_rental.json"
      "layers.bicycle_rental" false false =
    [{ id := "bicycle_rental" ++ "." ++ "f1",
       filePath := "/w/assets/layers/bicycle_rental/bicycle_rental.json",
       jsonPath := [Seg.key "filters"], type := IType.filter, reference := none }] :=
  c6_filter_entity [] brFilterLayer "/w/assets/layers/bicycle_rental/bicycle_rental.json"
    "layers.bicycle_rental" false "bicycle_rental" "f1" rfl rfl rfl rfl

/-- Inline-layer fixtures for the non-reuse property. -/
def questionsPoolFile : WFile :=
  ⟨"/w/assets/layers/questions/questions.json", 1,
    some (.obj [("id", .str "questions"), ("tagRenderings", .arr [.obj [("id", .str "name")]])])⟩

def inlineTheme : Json :=
  .obj [("id", .str "inl"),
        ("layers", .arr [.obj [("id", .str "my_inline"),
                               ("tagRenderings", .arr [.str "name"])]])]

def inlineThemeFile : WFile := ⟨"/w/assets/themes/inl/inl.json", 4, some inlineTheme⟩

def inlineThemeWS : Workspace := [questionsPoolFile, inlineThemeFile]

/-- The reference the inline layer of the fixture theme produces. -/
def inlineRefItem : CacheItem :=
  { id := "name", filePath := "/w/assets/themes/inl/inl.json",
    jsonPath := [Seg.key "tagRenderings"], type := IType.reference,
    reference := some {
      from_ := { id := "themes.inl.layers.0", uri := some "/w/assets/themes/inl/inl.json",
                 range := some [Seg.key "layers", Seg.idx 0, Seg.key "tagRenderings",
                                Seg.idx 0] },
      to_ := { id := "layers.questions.tagRenderings.name",
               uri := some "/w/assets/layers/questions/questions.json",
               range := some [Seg.key "tagRenderings", Seg.idx 0] },
      type := RType.tagRendering } }

/-- C7: after scanning a theme file, every record tagged with the theme
file is a reference (no tagRendering or filter entity ever originates
from the theme, in particular none from an inline layer), its from side
is the theme or the theme-with-inline-index address, and consequently
the entity queries return no item tagged with the theme file. -/
theorem c7_inline_layer_non_reuse (ws : Workspace) (f : WFile) (c : CacheData) (tid : String)
    (hthemes : assetMatch f.path = some "themes")
    (hid : jsToStringU (getField ((f.parsed).getD Json.null) "id") = tid) :
    (∀ it ∈ (saveFileToCache ws f c).items, it.filePath = f.path →
      it.type = IType.reference ∧ ∃ r, it.reference = some r ∧
        (r.from_.id = "themes." ++ tid ∨
         ∃ n : Nat, r.from_.id = "themes." ++ tid ++ ".layers." ++ toString n)) ∧
    (∀ it ∈ entityItemsOf IType.tagRendering (saveFileToCache ws f c), it.filePath ≠ f.path) ∧
    (∀ it ∈ entityItemsOf IType.filter (saveFileToCache ws f c), it.filePath ≠ f.path) := by
  have hrecs : (fileRecords ws "themes" f).1 = (saveThemeItems ws f).1 := by
    simp [fileRecords]
  have hmain : ∀ it ∈ (saveFileToCache ws f c).items, it.filePath = f.path →
      it.type = IType.reference ∧ ∃ r, it.reference = some r ∧
        (r.from_.id = "themes." ++ tid ∨
         ∃ n : Nat, r.from_.id = "themes." ++ tid ++ ".layers." ++ toString n) := by
    intro it hm hfp
    rw [saveFileToCache_items ws f c "themes" hthemes] at hm
    rcases List.mem_append.mp hm with hm | hm
    · have := List.of_mem_filter hm
      simp [hfp] at this
    · rw [hrecs] at hm
      have h := saveThemeItems_shape it hm
      rw [hid] at h
      exact ⟨h.2.1, h.2.2⟩
  refine ⟨hmain, ?_, ?_⟩
  · intro it hm
    have h1 := List.of_mem_filter hm
    have h2 := List.mem_of_mem_filter hm
    simp only [decide_eq_true_eq] at h1
    intro hfp
    have := (hmain it h2 hfp).1
    rw [h1] at this
    cases this
  · intro it hm
    have h1 := List.of_mem_filter hm
    have h2 := List.mem_of_mem_filter hm
    simp only [decide_eq_true_eq] at h1
    intro hfp
    have := (hmain it h2 hfp).1
    rw [h1] at this
    cases this

theorem c7_inline_layer_non_reuse_witness :
    (inlineRefItem ∈ (saveFileToCache inlineThemeWS inlineThemeFile emptyCache).items) ∧
    (inlineRefItem.type = IType.reference ∧ ∃ r, inlineRefItem.reference = some r ∧
      (r.from_.id = "themes." ++ "inl" ∨
       ∃ n : Nat, r.from_.id = "themes." ++ "inl" ++ ".layers." ++ toString n)) ∧
    entityItemsOf IType.tagRendering
      (saveFileToCache inlineThemeWS inlineThemeFile emptyCache) = [] :=
  ⟨by decide,
   (c7_inline_layer_non_reuse inlineThemeWS inlineThemeFile emptyCache "inl"
      (by decide) rfl).1 inlineRefItem (by decide) (by decide),
   by rfl⟩

lemma lookupTs_cons (f : String × Nat) (fs : List (String × Nat)) (q : String) :
    lookupTs (f :: fs) q = if f.fst = q then f.snd else lookupTs fs q := by
  unfold lookupTs
  by_cases hq : f.fst = q
  · simp [List.find?, hq]
  · simp [List.find?, hq]

lemma lookupTs_overwrite_other (files : List (String × Nat)) (p : String) (t : Nat)
    (q : String) (h : q ≠ p) :
    lookupTs (files.map (fun f => if f.fst = p then (p, t) else f)) q = lookupTs files q := by
  have hpq : ¬ p = q := fun hh => h hh.symm
  induction files with
  | nil => rfl
  | cons f fs ih =>
    rw [List.map_cons, lookupTs_cons, lookupTs_cons]
    by_cases hf : f.fst = p
    · rw [if_pos hf]
      have h1 : ¬ (p, t).fst = q := hpq
      have h2 : ¬ f.fst = q := by rw [hf]; exact hpq
      rw [if_neg h1, if_neg h2, ih]
    · rw [if_neg hf]
      by_cases hq : f.fst = q
      · rw [if_pos hq, if_pos hq]
      · rw [if_neg hq, if_neg hq, ih]

lemma lookupTs_append_single_other (files : List (String × Nat)) (p : String) (t : Nat)
    (q : String) (h : q ≠ p) :
    lookupTs (files ++ [(p, t)]) q = lookupTs files q := by
  have hpq : ¬ p = q := fun hh => h hh.symm
  induction files with
  | nil =>
    show lookupTs [(p, t)] q = lookupTs [] q
    rw [lookupTs_cons, if_neg hpq]
  | cons f fs ih =>
    rw [List.cons_append, lookupTs_cons, lookupTs_cons]
    by_cases hq : f.fst = q
    · rw [if_pos hq, if_pos hq]
    · rw [if_neg hq, if_neg hq, ih]

lemma lookupTs_setTs_other (files : List (String × Nat)) (p : String) (t : Nat) (q : String)
    (h : q ≠ p) : lookupTs (setTs files p t) q = lookupTs files q := by
  unfold setTs
  split
  · exact lookupTs_overwrite_other files p t q h
  · exact lookupTs_append_single_other files p t q h

lemma lookupTs_saveFileToCache_other (ws : Workspace) (f : WFile) (c : CacheData)
    (q : String) (h : q ≠ f.path) :
    lookupTs (saveFileToCache ws f c).files q = lookupTs c.files q := by
  unfold saveFileToCache
  cases ha : assetMatch f.path with
  | none => rfl
  | some asset =>
    dsimp only
    split
    · exact lookupTs_setTs_other _ _ _ _ h
    · rfl

lemma saveFileToCache_items_other (ws : Workspace) (f : WFile) (c : CacheData)
    (q : String) (h : q ≠ f.path) :
    (saveFileToCache ws f c).items.filter (fun it => it.filePath = q) =
      c.items.filter (fun it => it.filePath = q) := by
  cases ha : assetMatch f.path with
  | none => unfold saveFileToCache; rw [ha]
  | some asset =>
    rw [saveFileToCache_items ws f c asset ha, List.filter_append]
    have h1 : (fileRecords ws asset f).1.filter (fun it => it.filePath = q) = [] := by
      rw [List.filter_eq_nil_iff]
      intro a ha2
      rw [fileRecords_filePath a ha2]
      simp [Ne.symm h]
    have h2 : (c.items.filter (fun it => it.filePath ≠ f.path)).filter
        (fun it => it.filePath = q) = c.items.filter (fun it => it.filePath = q) := by
      rw [List.filter_filter]
      apply List.filter_congr
      intro it _
      by_cases hq : it.filePath = q
      · simp [hq, h]
      · simp [hq]
    rw [h1, h2, List.append_nil]

/-- A workspace file the rescan re-invokes the scanner for: not
excluded, and newer on disk than the stored timestamp. -/
def eligibleNewer (c : CacheData) (f : WFile) : Bool :=
  !excludedFile f.path && lookupTs c.files f.path < f.mtime

/-- A workspace file the rescan counts as unchanged: not excluded, not
newer. -/
def unchangedFile (c : CacheData) (f : WFile) : Bool :=
  !excludedFile f.path && !(lookupTs c.files f.path < f.mtime : Bool)

lemma scanLoop_cons_excluded {ws : Workspace} {f : WFile} {rest : List WFile} {c : CacheData}
    (h : excludedFile f.path = true) : scanLoop ws (f :: rest) c = scanLoop ws rest c := by
  simp [scanLoop, h]

lemma scanLoop_cons_changed {ws : Workspace} {f : WFile} {rest : List WFile} {c : CacheData}
    (h1 : excludedFile f.path = false) (h2 : lookupTs c.files f.path < f.mtime) :
    scanLoop ws (f :: rest) c =
      ((scanLoop ws rest (saveFileToCache ws f c)).1,
       (scanLoop ws rest (saveFileToCache ws f c)).2.1 + 1,
       (scanLoop ws rest (saveFileToCache ws f c)).2.2) := by
  simp [scanLoop, h1, h2]

lemma scanLoop_cons_unchanged {ws : Workspace} {f : WFile} {rest : List WFile} {c : CacheData}
    (h1 : excludedFile f.path = false) (h2 : ¬ lookupTs c.files f.path < f.mtime) :
    scanLoop ws (f :: rest) c =
      ((scanLoop ws rest c).1, (scanLoop ws rest c).2.1, (scanLoop ws rest c).2.2 + 1) := by
  simp [scanLoop, h1, h2]

lemma scanLoop_spec (ws : Workspace) :
    ∀ (l : List WFile) (c : CacheData), ((l.map (fun f => f.path)).Nodup) →
    (scanLoop ws l c).2.1 = (l.filter (fun f => eligibleNewer c f)).length ∧
    (scanLoop ws l c).2.2 = (l.filter (fun f => unchangedFile c f)).length ∧
    ∀ q : String, q ∉ (l.filter (fun f => eligibleNewer c f)).map (fun f => f.path) →
      (scanLoop ws l c).1.items.filter (fun it => it.filePath = q) =
        c.items.filter (fun it => it.filePath = q) := by
  intro l
  induction l with
  | nil => intro c _; exact ⟨rfl, rfl, fun q _ => rfl⟩
  | cons f rest ih =>
    intro c hnd
    rw [List.map_cons, List.nodup_cons] at hnd
    have hpath : ∀ g ∈ rest, g.path ≠ f.path := by
      intro g hg hgp
      exact hnd.1 (hgp ▸ List.mem_map_of_mem (fun x => x.path) hg)
    by_cases hex : excludedFile f.path
    · have he : eligibleNewer c f = false := by simp [eligibleNewer, hex]
      have hu : unchangedFile c f = false := by simp [unchangedFile, hex]
      have ⟨ih1, ih2, ih3⟩ := ih c hnd.2
      rw [scanLoop_cons_excluded hex]
      refine ⟨?_, ?_, ?_⟩
      · rw [ih1, List.filter_cons, he]; simp
      · rw [ih2, List.filter_cons, hu]; simp
      · intro q hq
        apply ih3
        rw [List.filter_cons, he] at hq
        simpa using hq
    · rw [Bool.not_eq_true] at hex
      by_cases hnew : lookupTs c.files f.path < f.mtime
      · have he : eligibleNewer c f = true := by simp [eligibleNewer, hex, hnew]
        have hu : unchangedFile c f = false := by simp [unchangedFile, hex, hnew]
        have hrest : ∀ g ∈ rest, eligibleNewer (saveFileToCache ws f c) g = eligibleNewer c g := by
          intro g hg
          simp [eligibleNewer, lookupTs_saveFileToCache_other ws f c g.path (hpath g hg)]
        have hrest2 : ∀ g ∈ rest, unchangedFile (saveFileToCache ws f c) g = unchangedFile c g := by
          intro g hg
          simp [unchangedFile, lookupTs_saveFileToCache_other ws f c g.path (hpath g hg)]
        have ⟨ih1, ih2, ih3⟩ := ih (saveFileToCache ws f c) hnd.2
        rw [scanLoop_cons_changed hex hnew]
        refine ⟨?_, ?_, ?_⟩
        · show (scanLoop ws rest (saveFileToCache ws f c)).2.1 + 1 = _
          rw [ih1, List.filter_congr hrest, List.filter_cons, he]
          simp
        · show (scanLoop ws rest (saveFileToCache ws f c)).2.2 = _
          rw [ih2, List.filter_congr hrest2, List.filter_cons, hu]
          simp
        · intro q hq
          rw [List.filter_cons, he] at hq
          simp only [if_true, List.map_cons, List.mem_cons, not_or] at hq
          show (scanLoop ws rest (saveFileToCache ws f c)).1.items.filter _ = _
          rw [ih3 q (by rw [List.filter_congr hrest]; exact hq.2)]
          exact saveFileToCache_items_other ws f c q hq.1
      · have he : eligibleNewer c f = false := by
          simp [eligibleNewer, hnew]
        have hu : unchangedFile c f = true := by simp [unchangedFile, hex, hnew]
        have ⟨ih1, ih2, ih3⟩ := ih c hnd.2
        rw [scanLoop_cons_unchanged hex hnew]
        refine ⟨?_, ?_, ?_⟩
        · show (scanLoop ws rest c).2.1 = _
          rw [ih1, List.filter_cons, he]
          simp
        · show (scanLoop ws rest c).2.2 + 1 = _
          rw [ih2, List.filter_cons, hu]
          simp
        · intro q hq
          apply ih3
          rw [List.filter_cons, he] at hq
          simpa using hq

/-- C8: the workspace rescan walks the glob-matched files once,
re-invokes the per-file scanner exactly for the non-excluded files
whose on-disk mtime exceeds the stored timestamp (0 when absent),
counts them as changed and the remaining non-excluded files as
unchanged, and leaves the records of every file it did not rescan
untouched.  Exclusions are the license_info.json, .proto.json and
favourite-layer files.  With pairwise distinct paths, the counts equal
the static changed and unchanged sets, so a workspace where exactly one
file is newer reports exactly one changed file. -/
theorem c8_scan_workspace (ws : Workspace) (c : CacheData)
    (hnd : (((ws.filter (fun f => globAssets f.path)).map (fun f => f.path)).Nodup)) :
    (scanWorkspace ws c).2.1 =
      ((ws.filter (fun f => globAssets f.path)).filter (fun f => eligibleNewer c f)).length ∧
    (scanWorkspace ws c).2.2 =
      ((ws.filter (fun f => globAssets f.path)).filter (fun f => unchangedFile c f)).length ∧
    ∀ q : String,
      q ∉ ((ws.filter (fun f => globAssets f.path)).filter
            (fun f => eligibleNewer c f)).map (fun f => f.path) →
      (scanWorkspace ws c).1.items.filter (fun it => it.filePath = q) =
        c.items.filter (fun it => it.filePath = q) :=
  scanLoop_spec ws _ c hnd

def c8ThemeFile : WFile :=
  ⟨"/w/assets/themes/a/a.json", 5, some (.obj [("id", .str "a"), ("layers", .arr [])])⟩

def c8LayerFile : WFile := ⟨"/w/assets/layers/b/b.json", 5, some (.obj [("id", .str "b")])⟩

def c8WS : Workspace := [c8ThemeFile, c8LayerFile]

/-- Cache where only the theme file's mtime advanced (stored 4, on disk
5) and the layer file is current (stored 5). -/
def c8Cache : CacheData :=
  ⟨[{ id := "b.x", filePath := "/w/assets/layers/b/b.json", jsonPath := [],
      type := IType.filter, reference := none }],
   [("/w/assets/themes/a/a.json", 4), ("/w/assets/layers/b/b.json", 5)]⟩

theorem c8_scan_workspace_witness :
    (scanWorkspace c8WS c8Cache).2.1 = 1 ∧ (scanWorkspace c8WS c8Cache).2.2 = 1 ∧
    (scanWorkspace c8WS c8Cache).1.items.filter
        (fun it => it.filePath = "/w/assets/layers/b/b.json") =
      c8Cache.items.filter (fun it => it.filePath = "/w/assets/layers/b/b.json") := by
  have h := c8_scan_workspace c8WS c8Cache (by decide)
  refine ⟨?_, ?_, ?_⟩
  · rw [h.1]; decide
  · rw [h.2.1]; decide
  · exact h.2.2 "/w/assets/layers/b/b.json" (by decide)

lemma stringMk_data (s : String) : String.mk s.data = s := by
  cases s
  rfl

lemma splitCharAux_no_sep (sep : Char) :
    ∀ (cs acc : List Char), sep ∉ cs →
    splitCharAux sep cs acc = [String.mk (acc.reverse ++ cs)] := by
  intro cs
  induction cs with
  | nil => intro acc _; simp [splitCharAux]
  | cons c cs ih =>
    intro acc h
    have hc : ¬ c = sep := by
      intro hh
      exact h (by rw [hh]; exact List.mem_cons_self _ _)
    have hrest : sep ∉ cs := fun hm => h (List.mem_cons_of_mem _ hm)
    rw [splitCharAux, if_neg hc, ih (c :: acc) hrest]
    simp

lemma splitCharAux_sep_split (sep : Char) (rest : List Char) :
    ∀ (pre acc : List Char), sep ∉ pre →
    splitCharAux sep (pre ++ sep :: rest) acc =
      String.mk (acc.reverse ++ pre) :: splitCharAux sep rest [] := by
  intro pre
  induction pre with
  | nil =>
    intro acc _
    rw [List.nil_append, splitCharAux, if_pos rfl]
    simp
  | cons c cs ih =>
    intro acc h
    have hc : ¬ c = sep := by
      intro hh
      exact h (by rw [hh]; exact List.mem_cons_self _ _)
    have hrest : sep ∉ cs := fun hm => h (List.mem_cons_of_mem _ hm)
    rw [List.cons_append, splitCharAux, if_neg hc, ih (c :: acc) hrest]
    simp

lemma not_mem_data_of_strContainsChar_false {s : String} {c : Char}
    (h : strContainsChar s c = false) : c ∉ s.data := by
  intro hm
  unfold strContainsChar at h
  rw [List.contains_eq_any_beq] at h
  rw [List.any_eq_false] at h
  exact (by simpa using h c hm : False)

lemma splitOnChar_qtr_pre (s : String) (h : ('.' : Char) ∉ s.data) :
    splitOnChar '.' ("layers.questions.tagRenderings." ++ s) =
      ["layers", "questions", "tagRenderings", s] := by
  unfold splitOnChar
  have hd : ("layers.questions.tagRenderings." ++ s).data =
      "layers".data ++ '.' :: ("questions".data ++ '.' ::
        ("tagRenderings".data ++ '.' :: s.data)) := rfl
  rw [hd]
  rw [splitCharAux_sep_split '.' _ "layers".data [] (by decide)]
  rw [splitCharAux_sep_split '.' _ "questions".data [] (by decide)]
  rw [splitCharAux_sep_split '.' _ "tagRenderings".data [] (by decide)]
  rw [splitCharAux_no_sep '.' s.data [] h]
  simp [stringMk_data]

lemma dropLastJoin_qtr (tok mid : String) (h : strContainsChar tok '.' = false) :
    dropLastJoin ("layers.questions.tagRenderings." ++ tok) mid =
      "layers.questions.tagRenderings." ++ mid := by
  unfold dropLastJoin
  rw [splitOnChar_qtr_pre tok (not_mem_data_of_strContainsChar_false h)]
  rfl

lemma tagRenderingRefItems_eq {ws : Workspace} {uri from_ : String} {fp : List Seg}
    {tok toBase : String} {tf : WFile} {tj : Json} {res : TRMatches}
    (htf : (findLayerFiles ws (trTargetName tok)).head? = some tf)
    (hp : tf.parsed = some tj)
    (hr : findTagRenderingInText tj tok = .ok res) :
    tagRenderingRefItems ws uri from_ fp tok toBase =
      .ok ((res.paths.zip res.ids).map
        (fun pi => mkTRRefItem uri from_ fp tok toBase tf.path pi.fst pi.snd)) := by
  unfold tagRenderingRefItems
  rw [htf]
  dsimp only
  rw [hp]
  dsimp only
  rw [hr]

lemma findTR_id_found {tj : Json} {trs : List Json} {tok : String} {i : Nat}
    (harr : getField tj "tagRenderings" = some (.arr trs))
    (hnw : strContainsChar tok '*' = false)
    (hidm : (trs.map (fun tr => getField tr "id")).findIdx? (fun v => jsIsStr v tok) = some i) :
    findTagRenderingInText tj tok = .ok ⟨[[Seg.key "tagRenderings", Seg.idx i]], [tok]⟩ := by
  unfold findTagRenderingInText
  rw [harr]
  simp only [hnw, Bool.false_eq_true, if_false, hidm]

lemma findTR_label_fallback {tj : Json} {trs : List Json} {tok : String} {lidx : List Nat}
    (harr : getField tj "tagRenderings" = some (.arr trs))
    (hnw : strContainsChar tok '*' = false)
    (hni : (trs.map (fun tr => getField tr "id")).findIdx? (fun v => jsIsStr v tok) = none)
    (hl : labelFallbackIdx tok (trs.map (fun tr => getField tr "labels")) 0 = .ok lidx) :
    findTagRenderingInText tj tok =
      .ok ⟨lidx.map (fun i => [Seg.key "tagRenderings", Seg.idx i]),
           lidx.map (fun i =>
             joinElemStr ((trs.map (fun tr => getField tr "id")).getD i none))⟩ := by
  unfold findTagRenderingInText
  rw [harr]
  simp only [hnw, Bool.false_eq_true, if_false, hni, hl]

lemma findTR_wildcard {tj : Json} {trs : List Json} {tok : String} {re : List RTok}
    {lidx : List Nat}
    (harr : getField tj "tagRenderings" = some (.arr trs))
    (hw : strContainsChar tok '*' = true)
    (hpat : ¬ ((splitOnChar '.' tok).getLastD "" = ""))
    (hre : compileRegex (replaceFirstStar ((splitOnChar '.' tok).getLastD "").data) = some re)
    (hl : wildLabelIdx re (trs.map (fun tr => getField tr "labels")) 0 = .ok lidx) :
    findTagRenderingInText tj tok =
      .ok ⟨((trs.map (fun tr => getField tr "id")).filter
              (fun v => reTest re (jsToStringU v))).map
                (fun v => [Seg.key "tagRenderings", segOfJsVal v]) ++
            lidx.map (fun i => [Seg.key "tagRenderings", Seg.idx i]),
           ((trs.map (fun tr => getField tr "id")).filter
              (fun v => reTest re (jsToStringU v))).map joinElemStr ++
            lidx.map (fun i =>
              joinElemStr ((trs.map (fun tr => getField tr "id")).getD i none))⟩ := by
  unfold findTagRenderingInText
  rw [harr]
  simp only [hw, if_true, if_neg hpat, hre, hl]

lemma trTargetName_bare {tok : String} (hnd : strContainsChar tok '.' = false) :
    trTargetName tok = "questions" := by
  unfold trTargetName
  rw [hnd]
  rfl

/-- C10: for a non-wildcard tagRendering token that matches no id in
the candidate document, the scanner falls back to exact label
membership: it emits one reference per tagRendering whose labels list
contains the token, each with the to address's last segment replaced by
that tagRendering's own id; when nothing matches the result is the
empty record list, not an error. -/
theorem c10_label_fallback_refs
    (ws : Workspace) (uri from_ : String) (fp : List Seg) (tok toBase : String)
    (tf : WFile) (tj : Json) (trs : List Json) (lidx : List Nat)
    (hnw : strContainsChar tok '*' = false)
    (htf : (findLayerFiles ws (trTargetName tok)).head? = some tf)
    (hp : tf.parsed = some tj)
    (harr : getField tj "tagRenderings" = some (.arr trs))
    (hni : (trs.map (fun tr => getField tr "id")).findIdx? (fun v => jsIsStr v tok) = none)
    (hl : labelFallbackIdx tok (trs.map (fun tr => getField tr "labels")) 0 = .ok lidx) :
    tagRenderingRefItems ws uri from_ fp tok toBase =
      .ok (lidx.map (fun i => mkTRRefItem uri from_ fp tok toBase tf.path
        [Seg.key "tagRenderings", Seg.idx i]
        (joinElemStr ((trs.map (fun tr => getField tr "id")).getD i none)))) := by
  rw [tagRenderingRefItems_eq htf hp (findTR_label_fallback harr hnw hni hl)]
  congr 1
  rw [List.zip_map', List.map_map]
  rfl

/-- Candidate document in which the bare token lbl only matches a
label, of a tagRendering whose own id is other. -/
def c4QuestionsDoc : Json :=
  .obj [("id", .str "questions"),
        ("tagRenderings", .arr [.obj [("id", .str "other"), ("labels", .arr [.str "lbl"])]])]

def c4QuestionsFile : WFile :=
  ⟨"/w/assets/layers/questions/questions.json", 1, some c4QuestionsDoc⟩

def c4BikeLayer : Json := .obj [("id", .str "bike2"), ("tagRenderings", .arr [.str "lbl"])]

def c4BikeFile : WFile := ⟨"/w/assets/layers/bike2/bike2.json", 2, some c4BikeLayer⟩

def c4WS : Workspace := [c4QuestionsFile, c4BikeFile]

/-- C4 counterexample: the bare token lbl, occurring as a plain string
entry, produces a reference whose to.qualifiedId is
layers.questions.tagRenderings.other, not
layers.questions.tagRenderings.lbl: the token is not the local
identifier of the resolved target when the match is by label. -/
theorem c4_counterexample :
    (saveFileToCache c4WS c4BikeFile emptyCache).items.map
        (fun it => it.reference.map (fun r => r.to_.id)) =
      [some "layers.questions.tagRenderings.other"] ∧
    some "layers.questions.tagRenderings.other" ≠
      some ("layers.questions.tagRenderings." ++ "lbl") := by
  constructor
  · rfl
  · decide

def filtersPoolFile : WFile :=
  ⟨"/w/assets/layers/filters/filters.json", 1,
    some (.obj [("id", .str "filters"), ("filter", .arr [.obj [("id", .str "ff")]])])⟩

def c4WitFilterItem : CacheItem :=
  { id := "ff", filePath := "/u2", jsonPath := [Seg.key "filters"],
    type := IType.reference,
    reference := some {
      from_ := { id := "layers.x", uri := some "/u2",
                 range := some [Seg.key "filter", Seg.idx 0] },
      to_ := { id := "layers.filters.filter." ++ "ff",
               uri := some "/w/assets/layers/filters/filters.json",
               range := some [Seg.key "filter", Seg.idx 0] },
      type := RType.filter } }

def c10WitItem : CacheItem :=
  mkTRRefItem "/u" "layers.bike2" [] "lbl" (plainTRToBase "lbl")
    "/w/assets/layers/questions/questions.json" [Seg.key "tagRenderings", Seg.idx 0] "other"

theorem c10_label_fallback_refs_witness :
    (labelFallbackIdx "lbl"
      ([Json.obj [("id", Json.str "other"), ("labels", Json.arr [Json.str "lbl"])]].map
        (fun tr => getField tr "labels")) 0 = .ok [0]) ∧
    (tagRenderingRefItems c4WS "/u" "layers.bike2" [] "lbl" (plainTRToBase "lbl") =
      .ok [c10WitItem]) ∧
    (tagRenderingRefItems c4WS "/u" "layers.bike2" [] "zzz" (plainTRToBase "zzz") =
      .ok []) := by
  have h1 := c10_label_fallback_refs c4WS "/u" "layers.bike2" [] "lbl" (plainTRToBase "lbl")
    c4QuestionsFile c4QuestionsDoc
    [.obj [("id", .str "other"), ("labels", .arr [.str "lbl"])]] [0]
    rfl rfl rfl rfl rfl rfl
  have h2 := c10_label_fallback_refs c4WS "/u" "layers.bike2" [] "zzz" (plainTRToBase "zzz")
    c4QuestionsFile c4QuestionsDoc
    [.obj [("id", .str "other"), ("labels", .arr [.str "lbl"])]] []
    rfl rfl rfl rfl rfl rfl
  exact ⟨rfl, h1, h2⟩

def isOkE {α β : Type} : Except α β → Bool
  | .ok _ => true
  | .error _ => false

/-- Items a single token resolution contributed (none when it threw). -/
def okPayload : Except Unit (List CacheItem) → List CacheItem
  | .ok l => l
  | .error _ => []

/-- C3 (amended): a wildcard token produces one Reference per
tagRendering id matched by the regex plus one per matching label
occurrence: the fan-out count is the number of id matches plus the
number of (tagRendering, label) pairs whose label matches, and no error
is raised.  A tagRendering with several matching labels, or matching by
both id and a label, is therefore hit more than once, repeating the
same to location; exactly k records with distinct to locations arise
only when each matching tagRendering is hit exactly once. -/
theorem c3_wildcard_fanout
    (ws : Workspace) (uri from_ : String) (fp : List Seg) (tok toBase : String)
    (tf : WFile) (tj : Json) (trs : List Json) (re : List RTok) (lidx : List Nat)
    (hw : strContainsChar tok '*' = true)
    (hpat : ¬ ((splitOnChar '.' tok).getLastD "" = ""))
    (hre : compileRegex (replaceFirstStar ((splitOnChar '.' tok).getLastD "").data) = some re)
    (htf : (findLayerFiles ws (trTargetName tok)).head? = some tf)
    (hp : tf.parsed = some tj)
    (harr : getField tj "tagRenderings" = some (.arr trs))
    (hl : wildLabelIdx re (trs.map (fun tr => getField tr "labels")) 0 = .ok lidx) :
    isOkE (tagRenderingRefItems ws uri from_ fp tok toBase) = true ∧
    (okPayload (tagRenderingRefItems ws uri from_ fp tok toBase)).length =
      ((trs.map (fun tr => getField tr "id")).filter
        (fun v => reTest re (jsToStringU v))).length + lidx.length := by
  rw [tagRenderingRefItems_eq htf hp (findTR_wildcard harr hw hpat hre hl)]
  refine ⟨rfl, ?_⟩
  simp only [okPayload, List.length_map, List.length_zip, List.length_append]
  omega

def wildQuestionsDoc : Json :=
  .obj [("id", .str "questions"),
        ("tagRenderings", .arr [.obj [("id", .str "x"),
                                      ("labels", .arr [.str "aa", .str "ab"])]])]

def wildQuestionsFile : WFile :=
  ⟨"/w/assets/layers/questions/questions.json", 1, some wildQuestionsDoc⟩

def wildBikeLayer : Json := .obj [("id", .str "bike"), ("tagRenderings", .arr [.str "a*"])]

def wildBikeFile : WFile := ⟨"/w/assets/layers/bike/bike.json", 2, some wildBikeLayer⟩

def wildWS : Workspace := [wildQuestionsFile, wildBikeFile]

/-- The one reference record the wildcard scan below pushes — twice. -/
def wildDupItem : CacheItem :=
  { id := "a*", filePath := "/w/assets/layers/bike/bike.json",
    jsonPath := [Seg.key "tagRenderings"], type := IType.reference,
    reference := some {
      from_ := { id := "layers.bike", uri := some "/w/assets/layers/bike/bike.json",
                 range := some [Seg.key "tagRenderings", Seg.idx 0] },
      to_ := { id := "layers.questions.tagRenderings.x",
               uri := some "/w/assets/layers/questions/questions.json",
               range := some [Seg.key "tagRenderings", Seg.idx 0] },
      type := RType.tagRendering } }

/-- C3 counterexample: the wildcard token a* matches exactly one
tagRendering of the candidate document (id x, via both of its labels aa
and ab), yet the scan produces two Reference records, and their to
locations are identical — refuting exactly-k-records-with-distinct-to
at k = 1. -/
theorem c3_counterexample :
    findTagRenderingInText wildQuestionsDoc "a*" =
      .ok ⟨[[Seg.key "tagRenderings", Seg.idx 0], [Seg.key "tagRenderings", Seg.idx 0]],
           ["x", "x"]⟩ ∧
    (saveFileToCache wildWS wildBikeFile emptyCache).items = [wildDupItem, wildDupItem] := by
  constructor <;> rfl

theorem c3_wildcard_fanout_witness :
    (isOkE (tagRenderingRefItems wildWS "/u" "layers.bike" [] "a*" (plainTRToBase "a*")) =
      true) ∧
    (okPayload (tagRenderingRefItems wildWS "/u" "layers.bike" [] "a*"
        (plainTRToBase "a*"))).length =
      (([Json.obj [("id", Json.str "x"), ("labels", Json.arr [Json.str "aa", Json.str "ab"])]].map
          (fun tr => getField tr "id")).filter
        (fun v => reTest [RTok.lit 'a' false, RTok.dot true] (jsToStringU v))).length +
        [0, 0].length ∧
    (okPayload (tagRenderingRefItems wildWS "/u" "layers.bike" [] "a*"
        (plainTRToBase "a*"))).length = 2 := by
  have h := c3_wildcard_fanout wildWS "/u" "layers.bike" [] "a*" (plainTRToBase "a*")
    wildQuestionsFile wildQuestionsDoc
    [.obj [("id", .str "x"), ("labels", .arr [.str "aa", .str "ab"])]]
    [RTok.lit 'a' false, RTok.dot true] [0, 0]
    rfl (by decide) rfl rfl rfl rfl rfl
  exact ⟨h.1, h.2, rfl⟩

lemma plainTRToBase_bare {tok : String} (hnd : strContainsChar tok '.' = false) :
    plainTRToBase tok = "layers.questions.tagRenderings." ++ tok := by
  unfold plainTRToBase
  rw [hnd]
  rfl

lemma builtinSingleTRToBase_bare {tok : String} (fs : List (String × Json))
    (hnd : strContainsChar tok '.' = false) :
    builtinSingleTRToBase tok (Json.obj fs) =
      "layers.questions.tagRenderings." ++ "[object Object]" := by
  unfold builtinSingleTRToBase
  rw [hnd]
  rfl

lemma dropLastJoin_plainBare {tok : String} (mid : String)
    (hnd : strContainsChar tok '.' = false) :
    dropLastJoin (plainTRToBase tok) mid = "layers.questions.tagRenderings." ++ mid := by
  rw [plainTRToBase_bare hnd, dropLastJoin_qtr tok mid hnd]

lemma dropLastJoin_builtinBare {tok : String} (fs : List (String × Json)) (mid : String)
    (hnd : strContainsChar tok '.' = false) :
    dropLastJoin (builtinSingleTRToBase tok (Json.obj fs)) mid =
      "layers.questions.tagRenderings." ++ mid := by
  rw [builtinSingleTRToBase_bare fs hnd, dropLastJoin_qtr "[object Object]" mid (by decide)]

lemma trEntryItems_str_ok {ws : Workspace} {uri from_ : String} {fullFile refsOnly : Bool}
    {lj : Json} {arr : List Json} {pos : Nat} {s : String} {its : List CacheItem}
    (h : tagRenderingRefItems ws uri from_
      (trPlainFromPath fullFile from_ (jsIndexOf arr (Json.str s) pos)) s
      (plainTRToBase s) = .ok its) :
    trEntryItems ws uri from_ fullFile refsOnly lj arr pos (Json.str s) = .ok its := by
  simp only [trEntryItems]
  rw [h]

lemma trEntryItems_builtin_str_ok {ws : Workspace} {uri from_ : String}
    {fullFile refsOnly : Bool} {lj : Json} {arr : List Json} {pos : Nat} {s : String}
    {its : List CacheItem} (hne : s ≠ "")
    (h : tagRenderingRefItems ws uri from_
      (trBuiltinFromPath fullFile from_
        (jsIndexOf arr (Json.obj [("builtin", Json.str s)]) pos)) s
      (builtinSingleTRToBase s (Json.obj [("builtin", Json.str s)])) = .ok its) :
    trEntryItems ws uri from_ fullFile refsOnly lj arr pos
      (Json.obj [("builtin", Json.str s)]) = .ok its := by
  simp only [trEntryItems]
  have hb : getField (Json.obj [("builtin", Json.str s)]) "builtin" =
      some (Json.str s) := rfl
  rw [hb]
  dsimp only
  have ht : jsTruthy (Json.str s) = true := by simp [jsTruthy, hne]
  rw [if_pos ht]
  rw [h]

/-- C4 (amended): a bare (dotless) tagRendering token — whether it
occurs as a plain string entry or as the string value of a builtin key
— resolves against the shared questions layer file, and each produced
Reference's to.qualifiedId is layers.questions.tagRenderings.MATCHEDID
with the target file's uri, where MATCHEDID is the matched
tagRendering's own id: the token itself when the token matches an id
directly, and the matched entry's id (not the token) under the label
fallback.  A bare filter token resolves against the shared filters
layer file and its Reference's to.qualifiedId is always
layers.filters.filter.TOKEN. -/
theorem c4_bare_token_shared_pool
    (ws : Workspace) (uri from_ : String) (fullFile refsOnly : Bool)
    (lj : Json) (arr : List Json) (pos : Nat) (tok : String)
    (tf : WFile) (tj : Json) (trs : List Json)
    (hnd : strContainsChar tok '.' = false)
    (hnw : strContainsChar tok '*' = false)
    (hne : tok ≠ "")
    (htf : (findLayerFiles ws "questions").head? = some tf)
    (hp : tf.parsed = some tj)
    (harr : getField tj "tagRenderings" = some (.arr trs))
    (ws2 : Workspace) (uri2 from2 : String) (fullFile2 refsOnly2 : Bool)
    (lj2 : Json) (arr2 : List Json) (pos2 : Nat) (ftok : String)
    (ff : WFile) (fj : Json) (ffl : List Json) (fi : Nat)
    (hnd2 : strContainsChar ftok '.' = false)
    (hff : (findLayerFiles ws2 "filters").head? = some ff)
    (hfp : ff.parsed = some fj)
    (hfl : getField fj "filter" = some (.arr ffl))
    (hfi : jsFindFilterIdx ftok ffl 0 = .ok (some fi)) :
    (∀ i : Nat,
      (trs.map (fun tr => getField tr "id")).findIdx? (fun v => jsIsStr v tok) = some i →
      (trEntryItems ws uri from_ fullFile refsOnly lj arr pos (Json.str tok) =
        .ok [mkTRRefItem uri from_
              (trPlainFromPath fullFile from_ (jsIndexOf arr (Json.str tok) pos)) tok
              (plainTRToBase tok) tf.path [Seg.key "tagRenderings", Seg.idx i] tok]) ∧
      (trEntryItems ws uri from_ fullFile refsOnly lj arr pos
          (Json.obj [("builtin", Json.str tok)]) =
        .ok [mkTRRefItem uri from_
              (trBuiltinFromPath fullFile from_
                (jsIndexOf arr (Json.obj [("builtin", Json.str tok)]) pos)) tok
              (builtinSingleTRToBase tok (Json.obj [("builtin", Json.str tok)])) tf.path
              [Seg.key "tagRenderings", Seg.idx i] tok]) ∧
      ((mkTRRefItem uri from_
          (trPlainFromPath fullFile from_ (jsIndexOf arr (Json.str tok) pos)) tok
          (plainTRToBase tok) tf.path
          [Seg.key "tagRenderings", Seg.idx i] tok).reference.map
            (fun r => (r.to_.id, r.to_.uri)) =
        some ("layers.questions.tagRenderings." ++ tok, some tf.path)) ∧
      ((mkTRRefItem uri from_
          (trBuiltinFromPath fullFile from_
            (jsIndexOf arr (Json.obj [("builtin", Json.str tok)]) pos)) tok
          (builtinSingleTRToBase tok (Json.obj [("builtin", Json.str tok)])) tf.path
          [Seg.key "tagRenderings", Seg.idx i] tok).reference.map
            (fun r => (r.to_.id, r.to_.uri)) =
        some ("layers.questions.tagRenderings." ++ tok, some tf.path))) ∧
    (∀ lidx : List Nat,
      (trs.map (fun tr => getField tr "id")).findIdx? (fun v => jsIsStr v tok) = none →
      labelFallbackIdx tok (trs.map (fun tr => getField tr "labels")) 0 = .ok lidx →
      (trEntryItems ws uri from_ fullFile refsOnly lj arr pos (Json.str tok) =
        .ok (lidx.map (fun i => mkTRRefItem uri from_
          (trPlainFromPath fullFile from_ (jsIndexOf arr (Json.str tok) pos)) tok
          (plainTRToBase tok) tf.path [Seg.key "tagRenderings", Seg.idx i]
          (joinElemStr ((trs.map (fun tr => getField tr "id")).getD i none))))) ∧
      (trEntryItems ws uri from_ fullFile refsOnly lj arr pos
          (Json.obj [("builtin", Json.str tok)]) =
        .ok (lidx.map (fun i => mkTRRefItem uri from_
          (trBuiltinFromPath fullFile from_
            (jsIndexOf arr (Json.obj [("builtin", Json.str tok)]) pos)) tok
          (builtinSingleTRToBase tok (Json.obj [("builtin", Json.str tok)])) tf.path
          [Seg.key "tagRenderings", Seg.idx i]
          (joinElemStr ((trs.map (fun tr => getField tr "id")).getD i none))))) ∧
      ((lidx.map (fun i => mkTRRefItem uri from_
          (trPlainFromPath fullFile from_ (jsIndexOf arr (Json.str tok) pos)) tok
          (plainTRToBase tok) tf.path [Seg.key "tagRenderings", Seg.idx i]
          (joinElemStr ((trs.map (fun tr => getField tr "id")).getD i none)))).map
            (fun it => it.reference.map (fun r => (r.to_.id, r.to_.uri))) =
        lidx.map (fun i => some ("layers.questions.tagRenderings." ++
          joinElemStr ((trs.map (fun tr => getField tr "id")).getD i none),
          some tf.path))) ∧
      ((lidx.map (fun i => mkTRRefItem uri from_
          (trBuiltinFromPath fullFile from_
            (jsIndexOf arr (Json.obj [("builtin", Json.str tok)]) pos)) tok
          (builtinSingleTRToBase tok (Json.obj [("builtin", Json.str tok)])) tf.path
          [Seg.key "tagRenderings", Seg.idx i]
          (joinElemStr ((trs.map (fun tr => getField tr "id")).getD i none)))).map
            (fun it => it.reference.map (fun r => (r.to_.id, r.to_.uri))) =
        lidx.map (fun i => some ("layers.questions.tagRenderings." ++
          joinElemStr ((trs.map (fun tr => getField tr "id")).getD i none),
          some tf.path)))) ∧
    (filterEntryItems ws2 uri2 from2 fullFile2 refsOnly2 lj2 arr2 pos2 (.str ftok) =
      .ok [{ id := ftok, filePath := uri2, jsonPath := [Seg.key "filters"],
             type := IType.reference,
             reference := some {
               from_ := { id := from2, uri := some uri2,
                          range := some (filterFromPath fullFile2 from2
                            (jsIndexOf arr2 (Json.str ftok) pos2)) },
               to_ := { id := "layers.filters.filter." ++ ftok, uri := some ff.path,
                        range := some [Seg.key "filter", Seg.idx fi] },
               type := RType.filter } }]) := by
  have htf2 : (findLayerFiles ws (trTargetName tok)).head? = some tf := by
    rw [trTargetName_bare hnd]
    exact htf
  refine ⟨?_, ?_, ?_⟩
  · intro i hidm
    have hr := findTR_id_found harr hnw hidm
    refine ⟨?_, ?_, ?_, ?_⟩
    · exact trEntryItems_str_ok (tagRenderingRefItems_eq htf2 hp hr)
    · exact trEntryItems_builtin_str_ok hne (tagRenderingRefItems_eq htf2 hp hr)
    · show some (dropLastJoin (plainTRToBase tok) tok, some tf.path) = _
      rw [dropLastJoin_plainBare tok hnd]
    · show some (dropLastJoin
        (builtinSingleTRToBase tok (Json.obj [("builtin", Json.str tok)])) tok,
        some tf.path) = _
      rw [dropLastJoin_builtinBare [("builtin", Json.str tok)] tok hnd]
  · intro lidx hni hl
    have hr := findTR_label_fallback harr hnw hni hl
    have hzip : ∀ (fp : List Seg) (toBase : String),
        ((TRMatches.paths ⟨lidx.map (fun i => [Seg.key "tagRenderings", Seg.idx i]),
            lidx.map (fun i =>
              joinElemStr ((trs.map (fun tr => getField tr "id")).getD i none))⟩).zip
          (TRMatches.ids ⟨lidx.map (fun i => [Seg.key "tagRenderings", Seg.idx i]),
            lidx.map (fun i =>
              joinElemStr ((trs.map (fun tr => getField tr "id")).getD i none))⟩)).map
          (fun pi => mkTRRefItem uri from_ fp tok toBase tf.path pi.fst pi.snd) =
        lidx.map (fun i => mkTRRefItem uri from_ fp tok toBase tf.path
          [Seg.key "tagRenderings", Seg.idx i]
          (joinElemStr ((trs.map (fun tr => getField tr "id")).getD i none))) := by
      intro fp toBase
      show ((lidx.map _).zip (lidx.map _)).map _ = _
      rw [List.zip_map', List.map_map]
      rfl
    refine ⟨?_, ?_, ?_, ?_⟩
    · apply trEntryItems_str_ok
      rw [tagRenderingRefItems_eq htf2 hp hr, hzip]
    · apply trEntryItems_builtin_str_ok hne
      rw [tagRenderingRefItems_eq htf2 hp hr, hzip]
    · rw [List.map_map]
      congr 1
      funext i
      show some (dropLastJoin (plainTRToBase tok)
        (joinElemStr ((trs.map (fun tr => getField tr "id")).getD i none)), some tf.path) = _
      rw [dropLastJoin_plainBare _ hnd]
    · rw [List.map_map]
      congr 1
      funext i
      show some (dropLastJoin
        (builtinSingleTRToBase tok (Json.obj [("builtin", Json.str tok)]))
        (joinElemStr ((trs.map (fun tr => getField tr "id")).getD i none)), some tf.path) = _
      rw [dropLastJoin_builtinBare [("builtin", Json.str tok)] _ hnd]
  · unfold filterEntryItems
    simp only [hnd2, Bool.false_eq_true, if_false]
    rw [hff]
    dsimp only
    rw [hfp]
    dsimp only
    rw [hfl]
    dsimp only
    rw [hfi]

def c4WitPlainItem : CacheItem :=
  mkTRRefItem "/u" "layers.bike" [Seg.key "tagRenderings", Seg.idx 0] "name"
    (plainTRToBase "name") "/w/assets/layers/questions/questions.json"
    [Seg.key "tagRenderings", Seg.idx 0] "name"

def c4WitBuiltinItem : CacheItem :=
  mkTRRefItem "/u" "layers.bike" [Seg.key "tagRenderings", Seg.idx 0, Seg.key "builtin"]
    "name" (builtinSingleTRToBase "name" (Json.obj [("builtin", Json.str "name")]))
    "/w/assets/layers/questions/questions.json" [Seg.key "tagRenderings", Seg.idx 0] "name"

def c4WitLabelItem : CacheItem :=
  mkTRRefItem "/u" "layers.bike2" [Seg.key "tagRenderings", Seg.idx 0] "lbl"
    (plainTRToBase "lbl") "/w/assets/layers/questions/questions.json"
    [Seg.key "tagRenderings", Seg.idx 0] "other"

theorem c4_bare_token_shared_pool_witness :
    (trEntryItems [questionsPoolFile] "/u" "layers.bike" false false Json.null
        [Json.str "name"] 0 (Json.str "name") = .ok [c4WitPlainItem]) ∧
    (trEntryItems [questionsPoolFile] "/u" "layers.bike" false false Json.null
        [Json.obj [("builtin", Json.str "name")]] 0
        (Json.obj [("builtin", Json.str "name")]) = .ok [c4WitBuiltinItem]) ∧
    (c4WitPlainItem.reference.map (fun r => (r.to_.id, r.to_.uri)) =
      some ("layers.questions.tagRenderings." ++ "name",
            some "/w/assets/layers/questions/questions.json")) ∧
    (trEntryItems c4WS "/u" "layers.bike2" false false Json.null
        [Json.str "lbl"] 0 (Json.str "lbl") = .ok [c4WitLabelItem]) ∧
    ([c4WitLabelItem].map (fun it => it.reference.map (fun r => (r.to_.id, r.to_.uri))) =
      [some ("layers.questions.tagRenderings." ++ "other",
             some "/w/assets/layers/questions/questions.json")]) ∧
    (filterEntryItems [filtersPoolFile] "/u2" "layers.x" false false Json.null
        [Json.str "ff"] 0 (Json.str "ff") = .ok [c4WitFilterItem]) := by
  have h1 := c4_bare_token_shared_pool [questionsPoolFile] "/u" "layers.bike" false false
    Json.null [Json.str "name"] 0 "name" questionsPoolFile
    (.obj [("id", .str "questions"), ("tagRenderings", .arr [.obj [("id", .str "name")]])])
    [.obj [("id", .str "name")]]
    rfl rfl (by decide) rfl rfl rfl
    [filtersPoolFile] "/u2" "layers.x" false false Json.null [Json.str "ff"] 0 "ff"
    filtersPoolFile (.obj [("id", .str "filters"), ("filter", .arr [.obj [("id", .str "ff")]])])
    [.obj [("id", .str "ff")]] 0
    rfl rfl rfl rfl rfl
  have h2 := c4_bare_token_shared_pool c4WS "/u" "layers.bike2" false false
    Json.null [Json.str "lbl"] 0 "lbl" c4QuestionsFile c4QuestionsDoc
    [.obj [("id", .str "other"), ("labels", .arr [.str "lbl"])]]
    rfl rfl (by decide) rfl rfl rfl
    [filtersPoolFile] "/u2" "layers.x" false false Json.null [Json.str "ff"] 0 "ff"
    filtersPoolFile (.obj [("id", .str "filters"), ("filter", .arr [.obj [("id", .str "ff")]])])
    [.obj [("id", .str "ff")]] 0
    rfl rfl rfl rfl rfl
  obtain ⟨ha, hb, hc, -⟩ := h1.1 0 rfl
  obtain ⟨hd, -, he, -⟩ := h2.2.1 [0] rfl rfl
  exact ⟨ha, hb, hc, hd, he, h1.2.2⟩
